import Mathlib

/-!
# frame_reductor — verification of the specification against the source

Shallow embedding of the C37.118 frame processor `frame_reductor`
(Go sources under `src/`): the rate reducer (`handler/reductor.go`),
the projector / re-serializer (`handler/converter.go`,
`model/c37data.go`), the multi-PMU aggregator, the UDP receive path
(`handler/listener.go`) and the data-frame decoder
(`model/c37data.go`).  Machine integers are modelled as `Nat`/`Int`
with explicit wrap-around where the Go code can overflow, Go `float64`
arithmetic is modelled exactly by dyadic significand/exponent pairs
with IEEE-754 round-to-nearest-even at 53 bits of precision, and
fallible Go code returns `Except`/`Option`.
-/

set_option maxRecDepth 200000

namespace FrameReductor

/-! ## Exact model of IEEE-754 binary64 arithmetic

`handler/reductor.go` accumulates `outRate / inRate` in a Go `float64`.
A finite `float64` value is a dyadic rational `m * 2 ^ e` with
`|m| < 2 ^ 53`; we represent it by the pair `(m, e)` and model each Go
arithmetic operation by the exact operation followed by rounding to 53
significant bits, round-to-nearest, ties to even — exactly the IEEE-754
semantics Go guarantees for `+`, `-`, `/` on `float64`.  The model
covers the normal range: every value reached by the reducer and the
decoders is a normal double or zero (no overflow, underflow, or NaN
occurs there). -/

/-- Number of bits of `n` (`0` for `0`); fuel-based structural recursion
so that the kernel can evaluate it (fuel 320 covers every number that
occurs). -/
def bitlenAux : ℕ → ℕ → ℕ
  | 0, _ => 0
  | fuel + 1, n => if n = 0 then 0 else bitlenAux fuel (n / 2) + 1

/-- Bit length of a natural number. -/
def bitlen (n : ℕ) : ℕ := bitlenAux 320 n

/-- A finite binary floating-point value `m * 2 ^ e`. -/
structure F where
  m : ℤ
  e : ℤ
  deriving DecidableEq, Repr

/-- The exact rational value of a floating-point datum. -/
def F.toQ (x : F) : ℚ := (x.m : ℚ) * (2 : ℚ) ^ x.e

/-- Round the exact dyadic value `m * 2 ^ e` to `prec` significant bits,
round-to-nearest, ties to even.  A zero result is canonicalised to
`(0, 0)`. -/
def roundDy (prec : ℕ) (m : ℤ) (e : ℤ) : F :=
  if m = 0 then ⟨0, 0⟩ else
  let a : ℕ := m.natAbs
  let L : ℕ := bitlen a
  if L ≤ prec then ⟨m, e⟩ else
    let k : ℕ := L - prec
    let q : ℕ := a / 2 ^ k
    let r : ℕ := a % 2 ^ k
    let h : ℕ := 2 ^ (k - 1)
    let q2 : ℕ :=
      if r < h then q else if h < r then q + 1
      else if q % 2 = 0 then q else q + 1
    ⟨if 0 ≤ m then (q2 : ℤ) else -(q2 : ℤ), e + (k : ℤ)⟩

/-- Round to binary64 (53 significant bits). -/
def round53 (m : ℤ) (e : ℤ) : F := roundDy 53 m e

/-- Go `float64` addition: exact sum, then binary64 rounding. -/
def fadd (x y : F) : F :=
  if x.e ≤ y.e then
    round53 (x.m + y.m * 2 ^ (y.e - x.e).toNat) x.e
  else
    round53 (x.m * 2 ^ (x.e - y.e).toNat + y.m) y.e

/-- Negation (exact on floats). -/
def fneg (x : F) : F := ⟨-x.m, x.e⟩

/-- Go `float64` subtraction. -/
def fsub (x y : F) : F := fadd x (fneg y)

/-- Correctly rounded quotient `x / y` of a signed integer by a positive
integer (the only shape of `float64` division the program performs:
both operands hold exact integers).  Scaling by `2 ^ B` exposes enough
bits; the division remainder supplies the sticky information for the
tie decisions. -/
def fdivZ (x : ℤ) (y : ℕ) : F :=
  if x = 0 then ⟨0, 0⟩ else
  let a : ℕ := x.natAbs
  let B : ℕ := 54 + bitlen y
  let N : ℕ := a * 2 ^ B
  let q : ℕ := N / y
  let r : ℕ := N % y
  let L : ℕ := bitlen q
  let k : ℕ := L - 53
  let q2 : ℕ := q / 2 ^ k
  let rem : ℕ := q % 2 ^ k
  let h : ℕ := 2 ^ (k - 1)
  let q3 : ℕ :=
    if rem < h then q2
    else if h < rem then q2 + 1
    else if r ≠ 0 then q2 + 1
    else if q2 % 2 = 0 then q2 else q2 + 1
  ⟨if 0 ≤ x then (q3 : ℤ) else -(q3 : ℤ), (k : ℤ) - (B : ℤ)⟩

/-- Floating-point comparison `x ≤ y` (the values are exact, so this is
the exact comparison after aligning exponents). -/
def fle (x y : F) : Bool :=
  if x.e ≤ y.e then
    decide (x.m ≤ y.m * 2 ^ (y.e - x.e).toNat)
  else
    decide (x.m * 2 ^ (x.e - y.e).toNat ≤ y.m)

/-- The `float64` value of a natural number that is exactly
representable (every integer the program converts is). -/
def fofNat (n : ℕ) : F := ⟨(n : ℤ), 0⟩

/-- The `float64` constant `1.0`. -/
def fone : F := ⟨1, 0⟩

/-! ## The rate reducer (`handler/reductor.go`, `ProcessDataFrame`)

```go
inRate := model.InputDataRate   // from the Config-2 data_rate field
outRate := model.OutputDataRate // from the `frames` CLI flag
ratio := outRate / inRate
accumulator += ratio
if accumulator >= 1.0 {
    accumulator -= 1.0
    // ... the frame is emitted
}
```
-/

/-- The float64 ratio `outRate / inRate` computed by `ProcessDataFrame`
(both rates hold exact small integers). -/
def ratio (outRate inRate : ℕ) : F := fdivZ (outRate : ℤ) inRate

/-- One `ProcessDataFrame` rate decision: the new accumulator and
whether the frame is emitted. -/
def redStep (p a : F) : F × Bool :=
  let a2 := fadd a p
  if fle fone a2 then (fsub a2 fone, true) else (a2, false)

/-- Run the reducer on `n` consecutive data frames starting from
accumulator `a`: final accumulator and number of emitted frames. -/
def redRun (p a : F) : ℕ → F × ℕ
  | 0 => (a, 0)
  | n + 1 =>
      let r := redRun p a n
      let s := redStep p r.1
      (s.1, r.2 + (if s.2 then 1 else 0))

theorem redRun_add (p a : F) (m n : ℕ) :
    redRun p a (m + n) =
      ((redRun p (redRun p a m).1 n).1,
        (redRun p a m).2 + (redRun p (redRun p a m).1 n).2) := by
  induction n with
  | zero => simp [redRun]
  | succ k ih =>
      show redRun p a (m + k + 1) = _
      rw [redRun, ih]
      simp [redRun, Nat.add_assoc]

/-- With `R_in = 50`, `R_out = 10` the float64 accumulator returns to
exactly `0` after five frames, having emitted exactly once (the fifth
rounded sum is exactly `1.0`). -/
theorem redRun_cycle5 : redRun (ratio 10 50) ⟨0, 0⟩ 5 = (⟨0, 0⟩, 1) := by
  decide

theorem redRun_periodic (q r : ℕ) :
    redRun (ratio 10 50) ⟨0, 0⟩ (5 * q + r) =
      ((redRun (ratio 10 50) ⟨0, 0⟩ r).1,
        q + (redRun (ratio 10 50) ⟨0, 0⟩ r).2) := by
  induction q with
  | zero => simp
  | succ k ih =>
      have h5 : 5 * (k + 1) + r = 5 + (5 * k + r) := by ring
      rw [h5, redRun_add, redRun_cycle5]
      show ((redRun (ratio 10 50) ⟨0, 0⟩ (5 * k + r)).1,
          1 + (redRun (ratio 10 50) ⟨0, 0⟩ (5 * k + r)).2) = _
      rw [ih]
      simp only [Prod.mk.injEq]
      exact ⟨trivial, by omega⟩

/-- The reducer state and count after `N` frames at rates 10/50 are
determined by `N % 5` and `N / 5`. -/
theorem redRun_mod (N : ℕ) :
    redRun (ratio 10 50) ⟨0, 0⟩ N =
      ((redRun (ratio 10 50) ⟨0, 0⟩ (N % 5)).1,
        N / 5 + (redRun (ratio 10 50) ⟨0, 0⟩ (N % 5)).2) := by
  conv_lhs => rw [show N = 5 * (N / 5) + N % 5 by omega]
  exact redRun_periodic (N / 5) (N % 5)

theorem redRun_partial_count (r : ℕ) (hr : r < 5) :
    (redRun (ratio 10 50) ⟨0, 0⟩ r).2 = 0 := by
  interval_cases r <;> decide

theorem redRun_state_bounds (r : ℕ) (hr : r < 5) :
    0 ≤ (redRun (ratio 10 50) ⟨0, 0⟩ r).1.toQ ∧
      (redRun (ratio 10 50) ⟨0, 0⟩ r).1.toQ < 1 := by
  interval_cases r
  · have h : redRun (ratio 10 50) ⟨0, 0⟩ 0 = (⟨0, 0⟩, 0) := by decide
    rw [h]; norm_num [F.toQ]
  · have h : redRun (ratio 10 50) ⟨0, 0⟩ 1 =
        (⟨7205759403792794, -55⟩, 0) := by decide
    rw [h]; norm_num [F.toQ]
  · have h : redRun (ratio 10 50) ⟨0, 0⟩ 2 =
        (⟨7205759403792794, -54⟩, 0) := by decide
    rw [h]; norm_num [F.toQ]
  · have h : redRun (ratio 10 50) ⟨0, 0⟩ 3 =
        (⟨5404319552844596, -53⟩, 0) := by decide
    rw [h]; norm_num [F.toQ]
  · have h : redRun (ratio 10 50) ⟨0, 0⟩ 4 =
        (⟨7205759403792794, -53⟩, 0) := by decide
    rw [h]; norm_num [F.toQ]

/-- Claim C1, counterexample: the rate-invariant part of the claim — for
every stream of `N` frames the reducer emits `⌊N·p⌋` or `⌊N·p⌋ + 1`
frames — fails on the code.  With `R_in = 50` (a valid Config-2
`data_rate`) and `R_out = 5` (a valid `frames` flag), after `N = 10`
frames the float64 accumulator holds `0.9999999999999999 < 1`, so the
reducer has emitted `0` frames although `⌊10 · (5/50)⌋ = 1`. -/
theorem reductor_floor_bound_counterexample :
    ¬ ((redRun (ratio 5 50) ⟨0, 0⟩ 10).2 = Nat.floor ((10 : ℚ) * (5 / 50))
      ∨ (redRun (ratio 5 50) ⟨0, 0⟩ 10).2 =
          Nat.floor ((10 : ℚ) * (5 / 50)) + 1) := by
  have hc : (redRun (ratio 5 50) ⟨0, 0⟩ 10).2 = 0 := by decide
  have hf : Nat.floor ((10 : ℚ) * (5 / 50)) = 1 := by norm_num
  rw [hc, hf]
  omega

/-- Claim C1 (amended): at the concrete rates `R_in = 50`, `R_out = 10`
(`p = 10/50`) the reducer run on any `N` consecutive data frames emits
exactly `N / 5 = ⌊N · p⌋` frames, the running float64 accumulator stays
in `[0, 1)` after every step, and in particular 50 frames yield exactly
10 emissions; the accumulator follows the float64 values nearest
`0.2, 0.4, 0.6, 0.8` (within one unit in the last place) and returns to
exactly `0` at the fifth frame, which is emitted.  (The general
`⌊N·p⌋ / ⌊N·p⌋+1` bound over all rate pairs fails on the code: see the
counterexample.) -/
theorem reductor_rate_invariant_50_10 (N : ℕ) :
    (redRun (ratio 10 50) ⟨0, 0⟩ N).2 = N / 5
    ∧ Nat.floor ((N : ℚ) * (10 / 50)) = N / 5
    ∧ 0 ≤ (redRun (ratio 10 50) ⟨0, 0⟩ N).1.toQ
    ∧ (redRun (ratio 10 50) ⟨0, 0⟩ N).1.toQ < 1
    ∧ (redRun (ratio 10 50) ⟨0, 0⟩ 50).2 = 10
    ∧ (redRun (ratio 10 50) ⟨0, 0⟩ 5).1 = ⟨0, 0⟩
    ∧ (redStep (ratio 10 50) (redRun (ratio 10 50) ⟨0, 0⟩ 4).1).2 = true
    ∧ |(redRun (ratio 10 50) ⟨0, 0⟩ 1).1.toQ - 2 / 10| ≤ 1 / 2 ^ 54
    ∧ |(redRun (ratio 10 50) ⟨0, 0⟩ 2).1.toQ - 4 / 10| ≤ 1 / 2 ^ 53
    ∧ |(redRun (ratio 10 50) ⟨0, 0⟩ 3).1.toQ - 6 / 10| ≤ 1 / 2 ^ 52
    ∧ |(redRun (ratio 10 50) ⟨0, 0⟩ 4).1.toQ - 8 / 10| ≤ 1 / 2 ^ 52 := by
  have hmod : N % 5 < 5 := by omega
  refine ⟨?_, ?_, ?_, ?_, by decide, by decide, by decide, ?_, ?_, ?_, ?_⟩
  · rw [redRun_mod]
    simp [redRun_partial_count (N % 5) hmod]
  · have h : (N : ℚ) * (10 / 50) = (N : ℚ) / 5 := by ring
    rw [h]
    simpa using Nat.floor_div_nat (N : ℚ) 5
  · rw [redRun_mod]
    exact (redRun_state_bounds (N % 5) hmod).1
  · rw [redRun_mod]
    exact (redRun_state_bounds (N % 5) hmod).2
  · have h : redRun (ratio 10 50) ⟨0, 0⟩ 1 =
        (⟨7205759403792794, -55⟩, 0) := by decide
    rw [h]; rw [show ((⟨7205759403792794, -55⟩, 0) : F × ℕ).1 =
      (⟨7205759403792794, -55⟩ : F) from rfl]
    rw [show F.toQ ⟨7205759403792794, -55⟩ =
        (7205759403792794 : ℚ) / 2 ^ 55 by norm_num [F.toQ]]
    rw [abs_le]; constructor <;> norm_num
  · have h : redRun (ratio 10 50) ⟨0, 0⟩ 2 =
        (⟨7205759403792794, -54⟩, 0) := by decide
    rw [h]; rw [show ((⟨7205759403792794, -54⟩, 0) : F × ℕ).1 =
      (⟨7205759403792794, -54⟩ : F) from rfl]
    rw [show F.toQ ⟨7205759403792794, -54⟩ =
        (7205759403792794 : ℚ) / 2 ^ 54 by norm_num [F.toQ]]
    rw [abs_le]; constructor <;> norm_num
  · have h : redRun (ratio 10 50) ⟨0, 0⟩ 3 =
        (⟨5404319552844596, -53⟩, 0) := by decide
    rw [h]; rw [show ((⟨5404319552844596, -53⟩, 0) : F × ℕ).1 =
      (⟨5404319552844596, -53⟩ : F) from rfl]
    rw [show F.toQ ⟨5404319552844596, -53⟩ =
        (5404319552844596 : ℚ) / 2 ^ 53 by norm_num [F.toQ]]
    rw [abs_le]; constructor <;> norm_num
  · have h : redRun (ratio 10 50) ⟨0, 0⟩ 4 =
        (⟨7205759403792794, -53⟩, 0) := by decide
    rw [h]; rw [show ((⟨7205759403792794, -53⟩, 0) : F × ℕ).1 =
      (⟨7205759403792794, -53⟩ : F) from rfl]
    rw [show F.toQ ⟨7205759403792794, -53⟩ =
        (7205759403792794 : ℚ) / 2 ^ 53 by norm_num [F.toQ]]
    rw [abs_le]; constructor <;> norm_num

/-! ## Bytes, strings, CRC

Frames are byte lists (`List ℕ`, each element `< 256` by construction
of the writers).  Go strings are modelled by Lean `String`; all channel
and station names in this protocol are ASCII, so a byte of a Go string
is the code point of the corresponding character. -/

/-- Two bytes, big-endian, of a value taken mod `2 ^ 16` (Go writes a
`uint16`). -/
def u16be (n : ℕ) : List ℕ := [n / 256 % 256, n % 256]

/-- Four bytes, big-endian, of a value taken mod `2 ^ 32`. -/
def u32be (n : ℕ) : List ℕ :=
  [n / 16777216 % 256, n / 65536 % 256, n / 256 % 256, n % 256]

/-- Two bytes, big-endian, of an `int16` in two's complement (Go writes
an `int16`). -/
def i16be (z : ℤ) : List ℕ := u16be (z % 65536).toNat

/-- The signed value of a 16-bit two's-complement word. -/
def toInt16 (n : ℕ) : ℤ :=
  if n % 65536 < 32768 then ((n % 65536 : ℕ) : ℤ)
  else ((n % 65536 : ℕ) : ℤ) - 65536

/-- Bytes of a Go string (ASCII code points). -/
def strBytes (s : String) : List ℕ := s.data.map Char.toNat

/-- `padName` from `handler/converter.go`: truncate to `len` bytes, or
pad with spaces up to `len`. -/
def padName (name : String) (len : ℕ) : String :=
  if len < name.length then ⟨name.data.take len⟩
  else ⟨name.data ++ List.replicate (len - name.length) ' '⟩

/-- A 16-byte field written with Go's `copy` into a zeroed buffer
(`BuildAggregatedConfigFrame`): the first 16 bytes of the string, then
NUL padding. -/
def nulPad16 (s : String) : List ℕ :=
  (strBytes s).take 16 ++ List.replicate (16 - (strBytes s).length) 0

/-- Does `needle` occur at the head of `hay`? -/
def leadsWith : List Char → List Char → Bool
  | [], _ => true
  | _ :: _, [] => false
  | a :: as, b :: bs => a == b && leadsWith as bs

/-- Substring occurrence on character lists. -/
def containsSubAux (needle : List Char) : List Char → Bool
  | [] => needle.isEmpty
  | c :: rest => leadsWith needle (c :: rest) || containsSubAux needle rest

/-- Go `strings.Contains s sub`. -/
def strContains (s sub : String) : Bool := containsSubAux sub.data s.data

/-- Go `strings.TrimRight s "\x00"`: drop trailing NUL characters. -/
def trimNul (s : String) : String :=
  ⟨(s.data.reverse.dropWhile (fun c => c == Char.ofNat 0)).reverse⟩

/-- One CRC-CCITT bit step: shift left and conditionally XOR the
polynomial `0x1021`. -/
def crcBitStep (c : ℕ) : ℕ :=
  if c.testBit 15 then (c * 2 ^^^ 0x1021) % 65536 else c * 2 % 65536

/-- Feed one byte into the CRC register (MSB first). -/
def crcByteStep (c b : ℕ) : ℕ :=
  let c0 := c ^^^ (b % 256) * 256
  crcBitStep (crcBitStep (crcBitStep (crcBitStep
    (crcBitStep (crcBitStep (crcBitStep (crcBitStep c0)))))))

/-- Modelled from the spec: `model.CalculateCRC`, referenced by
`BuildAggregatedConfigFrame` but not present under `src/`.  The spec
fixes it as CRC-CCITT: polynomial `0x1021`, initial value `0xFFFF`, no
reflection, no final XOR, over the whole frame preceding the CRC
bytes. -/
def calculateCRC (data : List ℕ) : ℕ := data.foldl crcByteStep 0xFFFF

/-! ## IEEE-754 binary32 (`float32`) values

`EncodeFrequency` always emits a `float32`; the decoders read `float32`
fields when the FORMAT bits say so.  A finite `float32` is a dyadic
rational, so it embeds into `F` exactly; Go's `float32 → float64`
conversion is exact. -/

/-- Round to binary32 (24 significant bits). -/
def round24 (m : ℤ) (e : ℤ) : F := roundDy 24 m e

/-- The exact value of a binary32 bit pattern (normal, subnormal or
zero; patterns with biased exponent 255 — infinities and NaNs — have no
rational value and are mapped to `0`, theorems about `float32` fields
exclude them by hypothesis). -/
def f32val (bits : ℕ) : F :=
  let sgn : ℤ := if bits.testBit 31 then -1 else 1
  let ex : ℕ := bits / 2 ^ 23 % 256
  let frac : ℕ := bits % 2 ^ 23
  if ex = 255 then ⟨0, 0⟩
  else if ex = 0 then ⟨sgn * (frac : ℤ), -149⟩
  else ⟨sgn * ((2 ^ 23 + frac : ℕ) : ℤ), (ex : ℤ) - 150⟩

/-- Is a binary32 bit pattern finite (biased exponent ≠ 255)? -/
def f32finite (bits : ℕ) : Bool := bits / 2 ^ 23 % 256 ≠ 255

/-- The binary32 bit pattern of a `float64` value (Go `float32(x)`):
round to 24 bits, then pack sign, biased exponent and fraction.  Covers
the normal binary32 range, which every value the program converts
inhabits. -/
def f32bits (x : F) : ℕ :=
  let r := round24 x.m x.e
  if r.m = 0 then 0 else
  let a : ℕ := r.m.natAbs
  let L : ℕ := bitlen a
  let m24 : ℕ := a * 2 ^ (24 - L)
  let e24 : ℤ := r.e - ((24 : ℤ) - (L : ℤ))
  let ex : ℤ := e24 + 150
  let sgn : ℕ := if r.m < 0 then 2 ^ 31 else 0
  sgn + ex.toNat * 2 ^ 23 + (m24 - 2 ^ 23)

/-- Big-endian bytes of a `float32` bit pattern. -/
def f32be (bits : ℕ) : List ℕ := u32be bits

/-- The `float32` bit pattern held in four big-endian bytes. -/
def f32ofBytes (b0 b1 b2 b3 : ℕ) : ℕ :=
  b0 % 256 * 16777216 + b1 % 256 * 65536 + b2 % 256 * 256 + b3 % 256

/-- Truncation of a `float64` value toward zero (Go's float-to-integer
conversion for in-range values). -/
def ftrunc (x : F) : ℤ :=
  if 0 ≤ x.e then x.m * 2 ^ x.e.toNat
  else Int.tdiv x.m (2 ^ (-x.e).toNat)

/-- Go `float64` multiplication (exact product, then rounding). -/
def fmul (x y : F) : F := round53 (x.m * y.m) (x.e + y.e)

/-- The `float64` value of an `int64`/`int16` that is exactly
representable. -/
def fofInt (z : ℤ) : F := ⟨z, 0⟩

/-! ## Data model (`model/` package)

The structures mirror the Go structs field by field.  The Go `Stat`
struct stores each decoded STAT subfield as a Polish display string
drawn from a fixed decode map; we store the underlying numeric value
instead, and `encodeStat` fails exactly where the Go reverse map lookup
would fail — on a subfield value whose decode-map entry is missing, so
that the decoded string would be `""` (the `TriggerReason` map covers
only 9 of the 16 four-bit codes; the other maps are total on their bit
ranges, so for them only out-of-range values fail). -/

/-- Frame type codes carried in bits 6–4 of `sync`.  Modelled from the
spec: the `C37Header`/`DecodeC37Header` actually linked into the
program (the variant with a `DataFrameType` field used by
`handler/listener.go`) is not under `src/`; §3 of the spec fixes the
code assignment. -/
inductive FrameKind
  | data | headerFrame | cfg1 | cfg2 | command | cfg3 | unknown
  deriving DecidableEq, Repr

/-- `model.C37Header` as used by the listener. -/
structure C37Header where
  sync : ℕ
  frameSize : ℕ
  idCode : ℕ
  soc : ℕ
  fracSec : ℕ
  deriving DecidableEq, Repr

/-- The frame-type code of a `sync` word (bits 6–4). -/
def frameKindOfSync (sync : ℕ) : FrameKind :=
  match sync / 16 % 8 with
  | 0 => .data
  | 1 => .headerFrame
  | 2 => .cfg1
  | 3 => .cfg2
  | 4 => .command
  | 5 => .cfg3
  | _ => .unknown

/-- Modelled from the spec: `DecodeC37Header` on the 14 header bytes
(big-endian `sync`, `frame_size`, `id_code`, `soc`, `fracsec`); the
linked implementation is not under `src/`. -/
def decodeC37Header (d : List ℕ) : C37Header :=
  { sync := d.getD 0 0 * 256 + d.getD 1 0
    frameSize := d.getD 2 0 * 256 + d.getD 3 0
    idCode := d.getD 4 0 * 256 + d.getD 5 0
    soc := d.getD 6 0 * 16777216 + d.getD 7 0 * 65536 +
      d.getD 8 0 * 256 + d.getD 9 0
    fracSec := d.getD 10 0 * 16777216 + d.getD 11 0 * 65536 +
      d.getD 12 0 * 256 + d.getD 13 0 }

/-- `model.FormatBits` (low nibble of the FORMAT word). -/
structure FormatBits where
  freqDfreq : ℕ
  analogFmt : ℕ
  phasorFmt : ℕ
  phasorType : ℕ
  deriving DecidableEq, Repr

/-- `model.DecodeFormatBits`. -/
def decodeFormatBits (format : ℕ) : FormatBits :=
  { freqDfreq := format / 8 % 2
    analogFmt := format / 4 % 2
    phasorFmt := format / 2 % 2
    phasorType := format % 2 }

/-- `model.EncodeFormatBits`. -/
def encodeFormatBits (f : FormatBits) : ℕ :=
  f.freqDfreq % 2 * 8 + f.analogFmt % 2 * 4 + f.phasorFmt % 2 * 2 +
    f.phasorType % 2

/-- `model.FNom`. -/
structure FNom where
  is50Hz : Bool
  is60Hz : Bool
  rawValue : ℕ
  deriving DecidableEq, Repr

/-- `model.DecodeFreqNominal` applied to a raw FNOM word. -/
def decodeFreqNominal (raw : ℕ) : FNom :=
  { is50Hz := raw % 2 = 1, is60Hz := raw % 2 = 0, rawValue := raw }

/-- `model.EncodeFNom`. -/
def encodeFNom (f : FNom) : ℕ := if f.is50Hz then 1 else 0

/-- `model.Stat` with numeric subfield values (see the section
comment). -/
structure Stat where
  dataError : ℕ
  pmuSync : Bool
  dataSorting : Bool
  pmuTrigger : Bool
  configChange : Bool
  dataModified : Bool
  pmuTimeQuality : ℕ
  unlockedTime : ℕ
  triggerReason : ℕ
  deriving DecidableEq, Repr

/-- `model.DecodeStat`. -/
def decodeStat (stat : ℕ) : Stat :=
  { dataError := stat / 2 ^ 14 % 4
    pmuSync := stat / 2 ^ 13 % 2 = 0
    dataSorting := stat / 2 ^ 12 % 2 = 1
    pmuTrigger := stat / 2 ^ 11 % 2 = 1
    configChange := stat / 2 ^ 10 % 2 = 1
    dataModified := stat / 2 ^ 9 % 2 = 1
    pmuTimeQuality := stat / 2 ^ 6 % 8
    unlockedTime := stat / 2 ^ 4 % 4
    triggerReason := stat % 16 }

/-- The 4-bit trigger-reason codes present in the Go decode map (the
reverse lookup fails for the 7 missing codes). -/
def triggerReasonKnown (n : ℕ) : Bool :=
  n = 0b1111 || n = 0b0111 || n = 0b0101 || n = 0b0011 || n = 0b0001 ||
    n = 0b0110 || n = 0b0100 || n = 0b0010 || n = 0b0000

/-- `model.EncodeStat`: packs the subfields, failing where the Go
reverse string-map lookup would fail. -/
def encodeStat (s : Stat) : Except Unit ℕ :=
  if s.dataError < 4 ∧ s.pmuTimeQuality < 8 ∧ s.unlockedTime < 4 ∧
      triggerReasonKnown s.triggerReason then
    .ok (s.dataError * 2 ^ 14 + (if s.pmuSync then 0 else 2 ^ 13) +
      (if s.dataSorting then 2 ^ 12 else 0) +
      (if s.pmuTrigger then 2 ^ 11 else 0) +
      (if s.configChange then 2 ^ 10 else 0) +
      (if s.dataModified then 2 ^ 9 else 0) +
      s.pmuTimeQuality * 2 ^ 6 + s.unlockedTime * 2 ^ 4 +
      s.triggerReason)
  else .error ()

/-- `model.PhasorUnit` (`ChannelType`: 0 voltage, 1 current;
`ConversionFactor` a Go `float64`). -/
structure PhasorUnit where
  channelType : ℕ
  conversionFactor : F
  deriving DecidableEq, Repr

/-- `model.AnalogType`. -/
inductive AnalogType
  | singlePointOnWave | rms | peak | reserved | userDefined | unknown
  deriving DecidableEq, Repr

/-- `model.AnalogUnit`. -/
structure AnalogUnit where
  channelType : AnalogType
  scalingFactor : F
  deriving DecidableEq, Repr

/-- `model.DigitalUnit`. -/
structure DigitalUnit where
  normalStatusMask : ℕ
  validInputsMask : ℕ
  deriving DecidableEq, Repr

/-- `model.C37ConfigurationFrame2` (the variant embedding `C37Header`,
`src/unnamed/part_000`). -/
structure C37ConfigurationFrame2 where
  header : C37Header
  timeMultiplier : ℕ
  numPMU : ℕ
  stationName : String
  idCode2 : ℕ
  format : FormatBits
  numPhasors : ℕ
  numAnalogs : ℕ
  numDigitals : ℕ
  channelNames : List String
  phasorUnits : List PhasorUnit
  analogUnits : List AnalogUnit
  digitalUnits : List DigitalUnit
  fNom : FNom
  configCount : ℕ
  dataRate : ℤ
  crc : ℕ
  deriving DecidableEq, Repr

/-- `model.C37ConfigurationFrame3`, reduced to its header: the data-path
claims depend only on whether the global Config-3 slot is occupied,
never on its body fields. -/
structure C37ConfigurationFrame3 where
  header : C37Header
  deriving DecidableEq, Repr

/-- `model.Phasor` (magnitude and angle are Go `float64`). -/
structure Phasor where
  name : String
  type : ℕ
  magnitude : F
  angle : F
  deriving DecidableEq, Repr

/-- `model.Analog`. -/
structure Analog where
  name : String
  value : F
  deriving DecidableEq, Repr

/-- `model.Digital`. -/
structure Digital where
  name : String
  value : Bool
  deriving DecidableEq, Repr

/-- `model.C37DataFrame` (the variant embedding `C37Header`,
`model/c37data.go`). -/
structure C37DataFrame where
  header : C37Header
  stat : Stat
  phasors : List Phasor
  frequency : F
  rocof : F
  analogs : List Analog
  digitals : List Digital
  crc : ℕ
  deriving DecidableEq, Repr

/-! ## Re-serialising encoders (`model/c37data.go`, `handler/converter.go`)

Go's float-to-integer conversions are defined only for in-range values;
the model wraps out-of-range results modulo the target width (every
value the theorems touch is in range). -/

/-- Errors of the data-frame conversion path. -/
inductive ConvErr
  | statInvalid | phasorAbsent
  deriving DecidableEq, Repr

/-- The selection predicate of `model.EncodePhasors`: the channel name
contains `"U_SEQ+"` or `"zgodna U"` as a substring. -/
def phasorWanted (ph : Phasor) : Bool :=
  strContains ph.name "U_SEQ+" || strContains ph.name "zgodna U"

/-- `model.EncodePhasors`: keeps only the first phasor whose name
matches `phasorWanted` and encodes it according to the active FORMAT
bits; fails when no phasor matches.  (In the 32-bit branch the Go code
writes `float32(Magnitude)` then `float32(Angle)` under either value of
the polar/rectangular bit.) -/
def encodePhasors (format : FormatBits) (phasors : List Phasor) :
    Except ConvErr (List ℕ) :=
  match phasors.find? phasorWanted with
  | none => .error .phasorAbsent
  | some ph =>
      if format.phasorFmt = 0 then
        if format.phasorType = 0 then
          .ok (u16be (ftrunc ph.magnitude % 65536).toNat ++
            i16be (ftrunc (fmul ph.angle ⟨10000, 0⟩)))
        else
          .ok (i16be (ftrunc ph.magnitude) ++ i16be (ftrunc ph.angle))
      else
        .ok (f32be (f32bits ph.magnitude) ++ f32be (f32bits ph.angle))

/-- `model.EncodeFrequency` (current version): always writes the value
as a `float32`, regardless of the FORMAT bits. -/
def encodeFrequency (freq : F) : List ℕ := f32be (f32bits freq)

/-- `model.EncodeROCOF`: `int16(dfreq * 100.0)` in the integer format,
`float32` otherwise. -/
def encodeROCOF (format : FormatBits) (rocof : F) : List ℕ :=
  if format.freqDfreq = 0 then i16be (ftrunc (fmul rocof ⟨100, 0⟩))
  else f32be (f32bits rocof)

/-- `handler.ConvertDataFrame`: filters the phasor list down to the
phasors named exactly `"U_SEQ+"` (Go `phasor.Name == "U_SEQ+"`), clears
analogs and digitals, re-serialises the frame (writing the original
header and the original CRC field), and finally patches bytes 2–3 with
the new total length.  `cfgFormat` is the FORMAT of the cached global
Config-2 consulted by `EncodePhasors`/`EncodeROCOF`. -/
def convertDataFrame (cfgFormat : FormatBits) (frame : C37DataFrame) :
    Except ConvErr (C37DataFrame × List ℕ) :=
  let filtered := frame.phasors.filter (fun ph => ph.name == "U_SEQ+")
  let frame2 : C37DataFrame :=
    { frame with phasors := filtered, analogs := [], digitals := [] }
  match encodeStat frame2.stat with
  | .error _ => .error .statInvalid
  | .ok statValue =>
      match encodePhasors cfgFormat frame2.phasors with
      | .error e => .error e
      | .ok phasorData =>
          let buf := u16be frame.header.sync ++ u16be frame.header.frameSize ++
            u16be frame.header.idCode ++ u32be frame.header.soc ++
            u32be frame.header.fracSec ++ u16be statValue ++ phasorData ++
            encodeFrequency frame2.frequency ++
            encodeROCOF cfgFormat frame2.rocof ++ u16be frame.crc
          let size := buf.length
          .ok (frame2, (buf.set 2 (size / 256 % 256)).set 3 (size % 256))

/-- `handler.calculateNewFrameSize` on the already-reduced frame. -/
def calculateNewFrameSize (frame : C37ConfigurationFrame2) : ℕ :=
  (18 + 2 + 2 + 16 + 2 + 2 + 2 + 2 + 2 +
    frame.channelNames.length * 16 + frame.phasorUnits.length * 4 +
    frame.analogUnits.length * 4 + frame.digitalUnits.length * 4 +
    2 + 2 + 2 + 2) % 65536

/-- The 4 PHUNIT bytes written by `ConvertConfigurationFrame`: one type
byte and the 24-bit scaled conversion factor
(`uint32(ConversionFactor * 1e5)`). -/
def phunitBytes (u : PhasorUnit) : List ℕ :=
  let cf : ℕ := (ftrunc (fmul u.conversionFactor ⟨100000, 0⟩) % 4294967296).toNat
  [u.channelType % 256, cf / 65536 % 256, cf / 256 % 256, cf % 256]

/-- The buffer contents written by `ConvertConfigurationFrame` before
the CRC field and the padding (header with the recomputed
`calculateNewFrameSize`, then every Config-2 body field of the reduced
frame). -/
def convertedCfgPre (frame2 : C37ConfigurationFrame2) : List ℕ :=
  u16be frame2.header.sync ++
  u16be (calculateNewFrameSize frame2) ++
  u16be frame2.header.idCode ++ u32be frame2.header.soc ++
  u32be frame2.header.fracSec ++ u32be frame2.timeMultiplier ++
  u16be frame2.numPMU ++ strBytes (padName frame2.stationName 16) ++
  u16be frame2.idCode2 ++ u16be (encodeFormatBits frame2.format) ++
  u16be frame2.numPhasors ++ u16be frame2.numAnalogs ++
  u16be frame2.numDigitals ++
  (frame2.channelNames.map fun n => strBytes (padName n 16)).flatten ++
  (frame2.phasorUnits.map phunitBytes).flatten ++
  u16be (encodeFNom frame2.fNom) ++ u16be frame2.configCount ++
  i16be frame2.dataRate

/-- `handler.ConvertConfigurationFrame`: rewrites the configuration to
a single `"U_SEQ+"` phasor channel, keeps only the first PHUNIT (Go
panics when there is none — modelled by `none`), clears analog and
digital units, sets `DataRate` to `int16(model.FramesCount)`,
re-serialises, appends the original CRC field and five zero padding
bytes, and patches bytes 2–3 with the final buffer length. -/
def convertConfigurationFrame (framesCount : ℕ)
    (frame : C37ConfigurationFrame2) :
    Option (C37ConfigurationFrame2 × List ℕ) :=
  match frame.phasorUnits with
  | [] => none
  | u0 :: _ =>
      let frame2 : C37ConfigurationFrame2 :=
        { frame with
            numPhasors := 1
            numAnalogs := 0
            numDigitals := 0
            channelNames := ["U_SEQ+"]
            phasorUnits := [u0]
            analogUnits := []
            digitalUnits := []
            dataRate := toInt16 framesCount }
      let buf := convertedCfgPre frame2 ++
        (u16be frame2.crc ++ [0, 0, 0, 0, 0])
      let size := buf.length
      some (frame2, (buf.set 2 (size / 256 % 256)).set 3 (size % 256))

/-! ## Multi-PMU aggregator (`HandleConfigFrame`,
`BuildAggregatedConfigFrame`)

The Go aggregator buffers configurations in
`configBuffer : map[uint16]*C37ConfigurationFrame2` and serialises the
per-PMU blocks with `for _, cfg := range configBuffer`; `findFirstKey`
also iterates the map.  Go map iteration order is unspecified (and
randomised between runs), so the embedding takes the **iteration
sequence** of the buffer as its argument: every run of the Go code
corresponds to some permutation of the buffered members. -/

/-- `requiredPMUs` (`// TODO` default in the source). -/
def requiredPMUs : ℕ := 3

/-- The synthetic aggregate IDCODE (`aggFrame.C37Header.IDCode = 999`). -/
def aggregateIDCode : ℕ := 999

/-- `analogTypeMap` from the aggregator file. -/
def analogTypeCode : AnalogType → ℕ
  | .singlePointOnWave => 0
  | .rms => 1
  | .peak => 2
  | .reserved => 5
  | .userDefined => 65
  | .unknown => 255

/-- The serialised per-PMU block of `BuildAggregatedConfigFrame`
(`// --- CF2 FIELDS: 8-19 ---` loop).  `FNom.ToUint16` and
`FormatBits.ToUint16` are methods not present under `src/`; modelled
from the spec as the standard FNOM / FORMAT encodings
(`EncodeFNom` / `EncodeFormatBits`). -/
def pmuBlock (pmu : C37ConfigurationFrame2) : List ℕ :=
  nulPad16 pmu.stationName ++
  u16be pmu.idCode2 ++
  u16be (encodeFormatBits pmu.format) ++
  u16be pmu.numPhasors ++ u16be pmu.numAnalogs ++ u16be pmu.numDigitals ++
  (pmu.channelNames.map nulPad16).flatten ++
  (pmu.phasorUnits.map fun u =>
    u16be u.channelType ++
    u16be (ftrunc (fmul u.conversionFactor ⟨100000, 0⟩) % 65536).toNat).flatten ++
  (pmu.analogUnits.map fun u =>
    u16be (analogTypeCode u.channelType) ++
    u16be (ftrunc u.scalingFactor % 65536).toNat).flatten ++
  (pmu.digitalUnits.map fun u =>
    u16be u.normalStatusMask ++ u16be u.validInputsMask).flatten ++
  u16be (encodeFNom pmu.fNom) ++
  u16be pmu.configCount

/-- The aggregate structure built by `BuildAggregatedConfigFrame`: the
header of the iteration-first member with `IDCode := 999`; `TimeBase`,
`ConfigCount`, `DataRate`, `FNom` inherited from the iteration-first
member; `NumPMU` the buffer size; the phasor/analog/digital counts the
(uint16-wrapped) sums over the members; every other field left at its
Go zero value. -/
def aggStruct (first : C37ConfigurationFrame2)
    (members : List C37ConfigurationFrame2) : C37ConfigurationFrame2 :=
  { header := { first.header with idCode := aggregateIDCode }
    timeMultiplier := first.timeMultiplier
    numPMU := members.length % 65536
    stationName := ""
    idCode2 := 0
    format := ⟨0, 0, 0, 0⟩
    numPhasors := members.foldl (fun a c => (a + c.numPhasors) % 65536) 0
    numAnalogs := members.foldl (fun a c => (a + c.numAnalogs) % 65536) 0
    numDigitals := members.foldl (fun a c => (a + c.numDigitals) % 65536) 0
    channelNames := []
    phasorUnits := []
    analogUnits := []
    digitalUnits := []
    fNom := first.fNom
    configCount := first.configCount
    dataRate := first.dataRate
    crc := 0 }

/-- `BuildAggregatedConfigFrame` applied to the iteration sequence of
the buffer: returns the aggregate structure and the serialised frame
(`FrameSize` patched to the final length, CRC over the patched bytes
appended), or `none` on an empty buffer. -/
def buildAggregatedConfigFrame (members : List C37ConfigurationFrame2) :
    Option (C37ConfigurationFrame2 × List ℕ) :=
  match members with
  | [] => none
  | first :: _ =>
      let agg := aggStruct first members
      let buf := (u16be agg.header.sync ++ u16be 0 ++
          u16be agg.header.idCode ++ u32be agg.header.soc ++
          u32be agg.header.fracSec ++ u32be (agg.timeMultiplier % 32768) ++
          u16be agg.numPMU) ++
        ((members.map pmuBlock).flatten ++ i16be agg.dataRate)
      let frameSize := (buf.length + 2) % 65536
      let sized := (buf.set 2 (frameSize / 256 % 256)).set 3 (frameSize % 256)
      some (agg, sized ++ u16be (calculateCRC sized))

/-! ## Data-frame decoding (`model/c37data.go`) and the receive path
(`handler/listener.go`)

The decoders read from a byte list; a strict `binary.Read` that runs
out of input is an error (`err`), a Go `nil`-pointer dereference or
out-of-range index is `panicked`.  `bytes.Reader.Read` (used by the
frequency/ROCOF raw reads) delivers however many bytes remain without
reporting an error unless the reader is empty, and the destination
buffer is zero-initialised — so a short raw read decodes available
bytes padded with zeros. -/

/-- Outcome of a decoding step: success, a returned error, or a Go
runtime panic. -/
inductive DR (α : Type)
  | ok (a : α)
  | err
  | panicked
  deriving DecidableEq, Repr

/-- Strict big-endian `uint16` read (`binary.Read`). -/
def readU16 : List ℕ → DR (ℕ × List ℕ)
  | b0 :: b1 :: rest => .ok (b0 % 256 * 256 + b1 % 256, rest)
  | _ => .err

/-- Strict big-endian 4-byte read (`binary.Read` of a 32-bit value). -/
def readU32 : List ℕ → DR (ℕ × List ℕ)
  | b0 :: b1 :: b2 :: b3 :: rest =>
      .ok (b0 % 256 * 16777216 + b1 % 256 * 65536 + b2 % 256 * 256 +
        b3 % 256, rest)
  | _ => .err

/-- `bytes.Reader.Read` into a zeroed `k`-byte buffer: error only when
the reader is empty, otherwise up to `k` bytes, zero-padded. -/
def readLoose (k : ℕ) (bytes : List ℕ) : DR (List ℕ × List ℕ) :=
  match bytes with
  | [] => .err
  | _ => .ok (bytes.take k ++ List.replicate (k - bytes.length) 0,
      bytes.drop k)

/-- `model.DecodeFrequency`: in the integer format the value is the
nominal frequency plus the signed raw value divided by 1000 (float64
arithmetic); in the float format it is the `float32` value itself.
Fails when FNOM indicates neither 50 nor 60 Hz. -/
def decodeFrequency (fnom : FNom) (format : FormatBits)
    (bytes : List ℕ) : DR (F × List ℕ) :=
  if fnom.is50Hz ∨ fnom.is60Hz then
    let nominal : ℕ := if fnom.is50Hz then 50 else 60
    if format.freqDfreq = 0 then
      match readU16 bytes with
      | .ok (w, rest) =>
          .ok (fadd (fofNat nominal) (fdivZ (toInt16 w) 1000), rest)
      | _ => .err
    else
      match readLoose 4 bytes with
      | .ok (raw, rest) =>
          .ok (f32val (f32ofBytes (raw.getD 0 0) (raw.getD 1 0)
            (raw.getD 2 0) (raw.getD 3 0)), rest)
      | _ => .err
  else .err

/-- `model.DecodeROCOF`: signed raw value divided by 100 in the integer
format, the `float32` value in the float format. -/
def decodeROCOF (format : FormatBits) (bytes : List ℕ) :
    DR (F × List ℕ) :=
  if format.freqDfreq = 0 then
    match readLoose 2 bytes with
    | .ok (raw, rest) =>
        .ok (fdivZ (toInt16 (raw.getD 0 0 % 256 * 256 + raw.getD 1 0 % 256))
          100, rest)
    | _ => .err
  else
    match readLoose 4 bytes with
    | .ok (raw, rest) =>
        .ok (f32val (f32ofBytes (raw.getD 0 0) (raw.getD 1 0)
          (raw.getD 2 0) (raw.getD 3 0)), rest)
    | _ => .err

/-- One phasor record per the FORMAT bits (`model.DecodePhasors` loop
body): 16-bit polar, 16-bit rectangular, or two `float32` words (the Go
code reads magnitude-then-angle in both 32-bit branches). -/
def readPhasorValue (format : FormatBits) (bytes : List ℕ) :
    DR ((F × F) × List ℕ) :=
  if format.phasorFmt = 0 then
    match readU16 bytes with
    | .ok (w1, r1) =>
        match readU16 r1 with
        | .ok (w2, r2) =>
            if format.phasorType = 0 then
              .ok ((fofNat w1, fdivZ (toInt16 w2) 10000), r2)
            else
              .ok ((fofInt (toInt16 w1), fofInt (toInt16 w2)), r2)
        | _ => .err
    | _ => .err
  else
    match readU32 bytes with
    | .ok (w1, r1) =>
        match readU32 r1 with
        | .ok (w2, r2) => .ok ((f32val w1, f32val w2), r2)
        | _ => .err
    | _ => .err

/-- `model.DecodePhasors`: one phasor per cached PHUNIT entry, named by
the corresponding channel name (NUL-trimmed); indexing a missing
channel name is a Go panic. -/
def decodePhasorsAux (format : FormatBits) :
    List PhasorUnit → List String → List ℕ →
    DR (List Phasor × List ℕ)
  | [], _, bytes => .ok ([], bytes)
  | u :: us, names, bytes =>
      match names with
      | [] => .panicked
      | nm :: nms =>
          match readPhasorValue format bytes with
          | .ok ((mag, ang), rest) =>
              match decodePhasorsAux format us nms rest with
              | .ok (ps, r2) =>
                  .ok (⟨trimNul nm, u.channelType, mag, ang⟩ :: ps, r2)
              | .err => .err
              | .panicked => .panicked
          | .err => .err
          | .panicked => .panicked

/-- `model.DecodeAnalogs` loop body over the paired unit/name lists. -/
def decodeAnalogsAux (format : FormatBits) :
    List (AnalogUnit × String) → List ℕ → DR (List Analog × List ℕ)
  | [], bytes => .ok ([], bytes)
  | (u, nm) :: rest, bytes =>
      let value : DR (F × List ℕ) :=
        if format.analogFmt = 0 then
          match readU16 bytes with
          | .ok (w, r) => .ok (fmul (fofInt (toInt16 w)) u.scalingFactor, r)
          | _ => .err
        else
          match readU32 bytes with
          | .ok (w, r) => .ok (f32val w, r)
          | _ => .err
      match value with
      | .ok (v, r1) =>
          match decodeAnalogsAux format rest r1 with
          | .ok (as, r2) => .ok (⟨nm, v⟩ :: as, r2)
          | .err => .err
          | .panicked => .panicked
      | _ => .err

/-- `model.DecodeAnalogs`: slices the analog channel names out of the
cached configuration (a Go panic when the name table is too short),
validates the unit/name counts, then decodes `NumAnalogs` values. -/
def decodeAnalogs (cfg : C37ConfigurationFrame2) (format : FormatBits)
    (bytes : List ℕ) : DR (List Analog × List ℕ) :=
  if cfg.channelNames.length < cfg.numPhasors + cfg.numAnalogs then
    .panicked
  else
    let names := (cfg.channelNames.drop cfg.numPhasors).take cfg.numAnalogs
    if cfg.analogUnits.length ≠ cfg.numAnalogs ∨
        names.length ≠ cfg.numAnalogs then .err
    else decodeAnalogsAux format (cfg.analogUnits.zip names) bytes

/-- The 16 LSB-first bits of one digital word paired with their channel
names. -/
def digitalBits (word : ℕ) (names : List String) : List Digital :=
  (List.range 16).map fun i => ⟨names.getD i "", word.testBit i⟩

/-- `model.DecodeDigitals` word loop. -/
def decodeDigitalsAux : ℕ → List String → List ℕ →
    DR (List Digital × List ℕ)
  | 0, _, bytes => .ok ([], bytes)
  | w + 1, names, bytes =>
      match readU16 bytes with
      | .ok (word, rest) =>
          match decodeDigitalsAux w (names.drop 16) rest with
          | .ok (ds, r2) => .ok (digitalBits word (names.take 16) ++ ds, r2)
          | .err => .err
          | .panicked => .panicked
      | _ => .err

/-- `model.DecodeDigitals`: the digital names start after the phasor and
analog names (a Go panic when the slice start exceeds the table);
failing the `16·NumDigitals` name-count validation is an error. -/
def decodeDigitals (cfg : C37ConfigurationFrame2) (bytes : List ℕ) :
    DR (List Digital × List ℕ) :=
  if cfg.channelNames.length < cfg.numPhasors + cfg.numAnalogs then
    .panicked
  else
    let names := cfg.channelNames.drop (cfg.numPhasors + cfg.numAnalogs)
    if names.length ≠ cfg.numDigitals * 16 then .err
    else decodeDigitalsAux cfg.numDigitals names bytes

/-- `model.DecodeDataFrame`: reads STAT, then unconditionally
dereferences the global Config-2 (`CfgFrame2.Format`) — a nil-pointer
panic when only a Config-3 is cached — and decodes phasors, frequency,
ROCOF, analogs, digitals and the CRC field using that configuration. -/
def decodeDataFrame (cfg2 : Option C37ConfigurationFrame2)
    (header : C37Header) (body : List ℕ) : DR C37DataFrame :=
  match readU16 body with
  | .err => .err
  | .panicked => .panicked
  | .ok (statRaw, r1) =>
      match cfg2 with
      | none => .panicked
      | some cfg =>
          match decodePhasorsAux cfg.format cfg.phasorUnits
              cfg.channelNames r1 with
          | .err => .err
          | .panicked => .panicked
          | .ok (phasors, r2) =>
              match decodeFrequency cfg.fNom cfg.format r2 with
              | .err => .err
              | .panicked => .panicked
              | .ok (freq, r3) =>
                  match decodeROCOF cfg.format r3 with
                  | .err => .err
                  | .panicked => .panicked
                  | .ok (rocof, r4) =>
                      match decodeAnalogs cfg cfg.format r4 with
                      | .err => .err
                      | .panicked => .panicked
                      | .ok (analogs, r5) =>
                          match decodeDigitals cfg r5 with
                          | .err => .err
                          | .panicked => .panicked
                          | .ok (digitals, r6) =>
                              match readU16 r6 with
                              | .err => .err
                              | .panicked => .panicked
                              | .ok (crc, _) =>
                                  .ok ⟨header, decodeStat statRaw, phasors,
                                    freq, rocof, analogs, digitals, crc⟩

/-- `handler.ReadUDPFrame` after a successful socket read of `received`
bytes: rejects fewer than 4 bytes, a `frame_size` field below 4, and a
`frame_size` field exceeding the received count; otherwise it returns
the buffer truncated to `frame_size` — it never verifies that
`frame_size` equals the received length, and never checks a CRC. -/
def readUDPFrame (received : List ℕ) : Except Unit (List ℕ) :=
  if received.length < 4 then .error ()
  else
    let frameLength := received.getD 2 0 % 256 * 256 + received.getD 3 0 % 256
    if frameLength < 4 then .error ()
    else if received.length < frameLength then .error ()
    else .ok (received.take frameLength)

/-- `handler.PMUFrame`. -/
structure PMUFrame where
  idCode : ℕ
  soc : ℕ
  fracSec : ℕ
  frameRaw : List ℕ
  deriving DecidableEq, Repr

/-- The listener's mutable state: the two global configuration slots
(`model.CfgFrame2` / `model.CfgFrame3`) and the timestamp-keyed frame
buffer (`frameBuffer`, a map keyed by `"soc:frac"`; modelled as the
association list of its insertions). -/
structure ListenerState where
  cfg2 : Option C37ConfigurationFrame2
  cfg3 : Option C37ConfigurationFrame3
  frameBuffer : List ((ℕ × ℕ) × PMUFrame)
  deriving DecidableEq, Repr

/-- Outcome of the listener's data-frame branch. -/
inductive StepOutcome
  | droppedNoConfig
  | decoded (f : C37DataFrame)
  | decodeError
  | panicked
  deriving DecidableEq, Repr

/-- `handler.StartListening`, the `case model.DataFrame` branch for a
received frame (`frameData`, at least 14 bytes): the frame is appended
to the timestamp buffer unconditionally, then dropped only when *both*
global configuration slots are empty — the IDCODEs are never compared —
and otherwise decoded against the global Config-2. -/
def dataFrameStep (s : ListenerState) (frameData : List ℕ) :
    ListenerState × StepOutcome :=
  let header := decodeC37Header (frameData.take 14)
  let s' : ListenerState :=
    { s with frameBuffer := s.frameBuffer ++
        [((header.soc, header.fracSec),
          ⟨header.idCode, header.soc, header.fracSec, frameData⟩)] }
  if s.cfg2 = none ∧ s.cfg3 = none then (s', .droppedNoConfig)
  else
    match decodeDataFrame s.cfg2 header (frameData.drop 14) with
    | .ok f => (s', .decoded f)
    | .err => (s', .decodeError)
    | .panicked => (s', .panicked)

/-! ## Theorems -/

theorem length_u16be (n : ℕ) : (u16be n).length = 2 := rfl

theorem length_u32be (n : ℕ) : (u32be n).length = 4 := rfl

theorem length_i16be (z : ℤ) : (i16be z).length = 2 := rfl

theorem length_phunitBytes (u : PhasorUnit) : (phunitBytes u).length = 4 := rfl

theorem length_padName16 (s : String) :
    (strBytes (padName s 16)).length = 16 := by
  have hs : s.length = s.data.length := rfl
  simp only [strBytes, padName]
  split
  · rename_i h
    rw [hs] at h
    simp
    omega
  · rename_i h
    rw [hs] at h
    simp
    omega

theorem length_flatten_const {α : Type} (f : α → List ℕ) (k : ℕ)
    (hf : ∀ a, (f a).length = k) (l : List α) :
    ((l.map f).flatten).length = k * l.length := by
  induction l with
  | nil => simp
  | cons a as ih => simp [ih, hf]; ring

theorem length_convertedCfgPre (f2 : C37ConfigurationFrame2) :
    (convertedCfgPre f2).length =
      52 + 16 * f2.channelNames.length + 4 * f2.phasorUnits.length := by
  simp only [convertedCfgPre, List.length_append, length_u16be, length_u32be,
    length_i16be, length_padName16,
    length_flatten_const (fun n => strBytes (padName n 16)) 16
      (fun n => length_padName16 n),
    length_flatten_const phunitBytes 4 length_phunitBytes]
  ring

theorem crcBitStep_lt (c : ℕ) : crcBitStep c < 65536 := by
  unfold crcBitStep
  split <;> exact Nat.mod_lt _ (by norm_num)

theorem crcByteStep_lt (c b : ℕ) : crcByteStep c b < 65536 :=
  crcBitStep_lt _

theorem foldl_crc_lt (l : List ℕ) :
    ∀ c, c < 65536 → l.foldl crcByteStep c < 65536 := by
  induction l with
  | nil => intro c hc; exact hc
  | cons a as ih => intro c _; exact ih _ (crcByteStep_lt c a)

theorem calculateCRC_lt (l : List ℕ) : calculateCRC l < 65536 :=
  foldl_crc_lt l 0xFFFF (by norm_num)

/-- Structure of the `ConvertConfigurationFrame` output: always 79
bytes; the patched `frame_size` field equals 79 (the emitted length);
the *original* CRC field sits at offsets 72-73, un-recomputed; the last
two bytes are zero padding. -/
theorem convertConfigurationFrame_bytes (fc : ℕ) (c c2 : C37ConfigurationFrame2)
    (out : List ℕ) (h : convertConfigurationFrame fc c = some (c2, out)) :
    out.length = 79
    ∧ out.getD 2 0 = 0 ∧ out.getD 3 0 = 79
    ∧ out.getD 72 0 = c.crc / 256 % 256 ∧ out.getD 73 0 = c.crc % 256
    ∧ out.getD 77 0 = 0 ∧ out.getD 78 0 = 0 := by
  cases hpu : c.phasorUnits with
  | nil => rw [convertConfigurationFrame, hpu] at h; simp at h
  | cons u0 us =>
      rw [convertConfigurationFrame, hpu] at h
      simp only [Option.some.injEq, Prod.mk.injEq] at h
      obtain ⟨-, hout⟩ := h
      set f2 : C37ConfigurationFrame2 :=
        { c with
            numPhasors := 1, numAnalogs := 0, numDigitals := 0,
            channelNames := ["U_SEQ+"], phasorUnits := [u0],
            analogUnits := [], digitalUnits := [],
            dataRate := toInt16 fc } with hf2
      have hpre : (convertedCfgPre f2).length = 72 := by
        rw [length_convertedCfgPre]
        simp [hf2]
      have hbuf : (convertedCfgPre f2 ++ (u16be f2.crc ++ [0, 0, 0, 0, 0])).length = 79 := by
        simp [List.length_append, hpre, length_u16be]
      rw [← hout]
      rw [hbuf]
      have hsplit : ∀ a b : ℕ,
          ((convertedCfgPre f2 ++ (u16be f2.crc ++ [0, 0, 0, 0, 0])).set 2 a).set 3 b
          = (((convertedCfgPre f2).set 2 a).set 3 b) ++ (u16be f2.crc ++ [0, 0, 0, 0, 0]) := by
        intro a b
        rw [List.set_append_left _ _ (by rw [hpre]; norm_num),
          List.set_append_left _ _ (by simp [List.length_set, hpre])]
      rw [hsplit]
      have hlen2 : (((convertedCfgPre f2).set 2 (79 / 256 % 256)).set 3 (79 % 256)).length = 72 := by
        simp [List.length_set, hpre]
      refine ⟨?_, ?_, ?_, ?_, ?_, ?_, ?_⟩
      · simp [List.length_append, hlen2, length_u16be]
      · rw [List.getD_eq_getElem?_getD, List.getElem?_append_left (by rw [hlen2]; norm_num),
          List.getElem?_set_ne (by norm_num), List.getElem?_set_eq_of_lt _ (by rw [hpre]; norm_num)]
        norm_num
      · rw [List.getD_eq_getElem?_getD, List.getElem?_append_left (by rw [hlen2]; norm_num),
          List.getElem?_set_eq_of_lt _ (by simp [List.length_set, hpre])]
        norm_num
      · rw [List.getD_eq_getElem?_getD, List.getElem?_append_right (by rw [hlen2])]
        rw [hlen2]
        norm_num [u16be]
      · rw [List.getD_eq_getElem?_getD, List.getElem?_append_right (by rw [hlen2]; norm_num)]
        rw [hlen2]
        norm_num [u16be]
      · rw [List.getD_eq_getElem?_getD, List.getElem?_append_right (by rw [hlen2]; norm_num)]
        rw [hlen2]
        norm_num [u16be]
      · rw [List.getD_eq_getElem?_getD, List.getElem?_append_right (by rw [hlen2]; norm_num)]
        rw [hlen2]
        norm_num [u16be]

/-- Is an `Except` value a success? -/
def isOkE {ε α : Type} : Except ε α → Bool
  | .ok _ => true
  | .error _ => false

instance {ε α : Type} [DecidableEq ε] [DecidableEq α] :
    DecidableEq (Except ε α) := fun x y =>
  match x, y with
  | .ok a, .ok b =>
      if h : a = b then .isTrue (by rw [h])
      else .isFalse (by intro hh; cases hh; exact h rfl)
  | .error a, .error b =>
      if h : a = b then .isTrue (by rw [h])
      else .isFalse (by intro hh; cases hh; exact h rfl)
  | .ok _, .error _ => .isFalse (by intro hh; cases hh)
  | .error _, .ok _ => .isFalse (by intro hh; cases hh)

/-- The aggregated frame satisfies the CRC and frame-size invariants:
the trailing two bytes are the CRC-CCITT of everything before them, and
the patched `frame_size` field equals the emitted length (for frames
that fit in the 16-bit size field). -/
theorem buildAggregatedConfigFrame_bytes (ms : List C37ConfigurationFrame2)
    (agg : C37ConfigurationFrame2) (out : List ℕ)
    (h : buildAggregatedConfigFrame ms = some (agg, out))
    (hsize : out.length < 65536) :
    out.getD (out.length - 2) 0 * 256 + out.getD (out.length - 1) 0 =
      calculateCRC (out.take (out.length - 2))
    ∧ out.getD 2 0 * 256 + out.getD 3 0 = out.length := by
  cases ms with
  | nil => simp [buildAggregatedConfigFrame] at h
  | cons first rest =>
      simp only [buildAggregatedConfigFrame, Option.some.injEq,
        Prod.mk.injEq] at h
      obtain ⟨-, hout⟩ := h
      set ag := aggStruct first (first :: rest) with hag
      set B := (u16be ag.header.sync ++ u16be 0 ++
          u16be ag.header.idCode ++ u32be ag.header.soc ++
          u32be ag.header.fracSec ++ u32be (ag.timeMultiplier % 32768) ++
          u16be ag.numPMU) ++
        (((first :: rest).map pmuBlock).flatten ++ i16be ag.dataRate) with hB
      have hBlen : B.length =
          22 + (((first :: rest).map pmuBlock).flatten).length := by
        rw [hB]
        simp [List.length_append, length_u16be, length_u32be, length_i16be]
        ring
      set fs := (B.length + 2) % 65536 with hfs
      set S := (B.set 2 (fs / 256 % 256)).set 3 (fs % 256) with hS
      have hSlen : S.length = B.length := by
        rw [hS]; simp [List.length_set]
      have houtlen : out.length = S.length + 2 := by
        rw [← hout]; simp [List.length_append, length_u16be]
      have hlen2 : (S ++ u16be (calculateCRC S)).length = S.length + 2 := by
        simp [List.length_append, length_u16be]
      have h2lt : 2 < B.length := by omega
      have h3lt : 3 < B.length := by omega
      constructor
      · have htake : out.take (out.length - 2) = S := by
          rw [← hout, hlen2]
          simp only [Nat.add_sub_cancel]
          exact List.take_left S _
        have hcrc := calculateCRC_lt S
        have hg1 : out.getD (out.length - 2) 0 = calculateCRC S / 256 % 256 := by
          rw [← hout, hlen2, Nat.add_sub_cancel, List.getD_eq_getElem?_getD,
            List.getElem?_append_right (Nat.le_refl _)]
          simp [u16be]
        have hg2 : out.getD (out.length - 1) 0 = calculateCRC S % 256 := by
          rw [← hout, hlen2]
          have : S.length + 2 - 1 = S.length + 1 := by omega
          rw [this, List.getD_eq_getElem?_getD,
            List.getElem?_append_right (by omega)]
          have : S.length + 1 - S.length = 1 := by omega
          rw [this]
          simp [u16be]
        rw [hg1, hg2, htake]
        omega
      · have hg2 : out.getD 2 0 = fs / 256 % 256 := by
          rw [← hout, List.getD_eq_getElem?_getD,
            List.getElem?_append_left (by omega),
            hS, List.getElem?_set_ne (by norm_num),
            List.getElem?_set_eq_of_lt _ h2lt]
          rfl
        have hg3 : out.getD 3 0 = fs % 256 := by
          rw [← hout, List.getD_eq_getElem?_getD,
            List.getElem?_append_left (by omega),
            hS, List.getElem?_set_eq_of_lt _ (by simp [List.length_set]; omega)]
          rfl
        rw [hg2, hg3]
        omega


theorem encodePhasors_nil (fmt : FormatBits) :
    encodePhasors fmt [] = .error .phasorAbsent := rfl

theorem encodePhasors_cons_ok (fmt : FormatBits) (hd : Phasor)
    (tl : List Phasor) (h : phasorWanted hd = true) :
    isOkE (encodePhasors fmt (hd :: tl)) = true := by
  have hfind : List.find? phasorWanted (hd :: tl) = some hd :=
    List.find?_cons_of_pos _ h
  by_cases h1 : fmt.phasorFmt = 0 <;> by_cases h2 : fmt.phasorType = 0 <;>
    simp [encodePhasors, hfind, h1, h2, isOkE]

theorem phasorWanted_of_exact (ph : Phasor) (h : ph.name = "U_SEQ+") :
    phasorWanted ph = true := by
  simp only [phasorWanted, h]
  decide

/-- A sample decoded Config-2 used by concrete counterexamples and
witnesses. -/
def sampleCfg2 : C37ConfigurationFrame2 :=
  { header := ⟨0xAA31, 70, 7, 1736899200, 300⟩
    timeMultiplier := 1000000
    numPMU := 1
    stationName := "STATION A"
    idCode2 := 7
    format := ⟨0, 0, 0, 0⟩
    numPhasors := 1
    numAnalogs := 0
    numDigitals := 0
    channelNames := ["U_SEQ+"]
    phasorUnits := [⟨0, ⟨1, 0⟩⟩]
    analogUnits := []
    digitalUnits := []
    fNom := ⟨true, false, 1⟩
    configCount := 1
    dataRate := 50
    crc := 0x1234 }

/-- The bytes `ConvertConfigurationFrame` emits for `sampleCfg2` at
target rate 10. -/
def sampleConvOut : List ℕ :=
  ((convertConfigurationFrame 10 sampleCfg2).map Prod.snd).getD []

/-- The reduced structure `ConvertConfigurationFrame` returns for
`sampleCfg2` at target rate 10. -/
def sampleConvCfg : C37ConfigurationFrame2 :=
  ((convertConfigurationFrame 10 sampleCfg2).map Prod.fst).getD sampleCfg2

/-- The bytes `BuildAggregatedConfigFrame` emits for the singleton
buffer `[sampleCfg2]`. -/
def sampleAggOut : List ℕ :=
  ((buildAggregatedConfigFrame [sampleCfg2]).map Prod.snd).getD []

/-- The aggregate structure for the singleton buffer `[sampleCfg2]`. -/
def sampleAggCfg : C37ConfigurationFrame2 :=
  ((buildAggregatedConfigFrame [sampleCfg2]).map Prod.fst).getD sampleCfg2

/-- Claim C3, counterexample: for the re-serialised Config-2 frame the
last two emitted bytes are the zero padding appended after the (stale)
CRC field, not the CRC-CCITT of the preceding bytes: on the concrete
frame `sampleCfg2`, the 79-byte output ends in `0, 0` while the CRC of
the first 77 bytes is 16969. -/
theorem reserializer_trailing_crc_counterexample :
    sampleConvOut.length = 79
    ∧ sampleConvOut.getD 2 0 * 256 + sampleConvOut.getD 3 0 = 79
    ∧ sampleConvOut.getD 77 0 = 0 ∧ sampleConvOut.getD 78 0 = 0
    ∧ calculateCRC (sampleConvOut.take 77) ≠
        sampleConvOut.getD 77 0 * 256 + sampleConvOut.getD 78 0 := by
  have htake : sampleConvOut.take 77 =
      [170, 49, 0, 79, 0, 7, 103, 134, 250, 128, 0, 0, 1, 44, 0, 15] ++
      ([66, 64, 0, 1, 83, 84, 65, 84, 73, 79, 78, 32, 65, 32, 32, 32] ++
      ([32, 32, 32, 32, 0, 7, 0, 0, 0, 1, 0, 0, 0, 0, 85, 95] ++
      ([83, 69, 81, 43, 32, 32, 32, 32, 32, 32, 32, 32, 32, 32, 0, 1] ++
      [134, 160, 0, 1, 0, 1, 0, 10, 18, 52, 0, 0, 0]))) := by decide
  have hc1 : List.foldl crcByteStep 65535
      [170, 49, 0, 79, 0, 7, 103, 134, 250, 128, 0, 0, 1, 44, 0, 15] =
      3069 := by decide
  have hc2 : List.foldl crcByteStep 3069
      [66, 64, 0, 1, 83, 84, 65, 84, 73, 79, 78, 32, 65, 32, 32, 32] =
      24939 := by decide
  have hc3 : List.foldl crcByteStep 24939
      [32, 32, 32, 32, 0, 7, 0, 0, 0, 1, 0, 0, 0, 0, 85, 95] =
      45390 := by decide
  have hc4 : List.foldl crcByteStep 45390
      [83, 69, 81, 43, 32, 32, 32, 32, 32, 32, 32, 32, 32, 32, 0, 1] =
      59994 := by decide
  have hc5 : List.foldl crcByteStep 59994
      [134, 160, 0, 1, 0, 1, 0, 10, 18, 52, 0, 0, 0] = 16969 := by decide
  have hcrc : calculateCRC (sampleConvOut.take 77) = 16969 := by
    rw [htake]
    simp only [calculateCRC, List.foldl_append]
    rw [hc1, hc2, hc3, hc4, hc5]
  refine ⟨by decide, by decide, by decide, by decide, ?_⟩
  rw [hcrc]
  decide

/-- Claim C3 (amended): the aggregator's frames do satisfy the claim —
trailing two bytes are the CRC-CCITT of everything before them and the
`frame_size` field equals the emitted length (when it fits in 16 bits).
For the re-serializer's Config-2 frames only the frame-size half holds:
the `frame_size` field equals the emitted length (79), but the frame
ends in two zero padding bytes and the CRC field — carried over
unrecomputed from the input frame — sits at offsets 72–73. -/
theorem emitted_frame_size_and_crc :
    (∀ fc c c2 out, convertConfigurationFrame fc c = some (c2, out) →
      out.getD 2 0 * 256 + out.getD 3 0 = out.length
      ∧ out.length = 79
      ∧ out.getD 72 0 = c.crc / 256 % 256 ∧ out.getD 73 0 = c.crc % 256
      ∧ out.getD 77 0 = 0 ∧ out.getD 78 0 = 0)
    ∧ ∀ ms agg out, buildAggregatedConfigFrame ms = some (agg, out) →
        out.length < 65536 →
        out.getD (out.length - 2) 0 * 256 + out.getD (out.length - 1) 0 =
          calculateCRC (out.take (out.length - 2))
        ∧ out.getD 2 0 * 256 + out.getD 3 0 = out.length := by
  constructor
  · intro fc c c2 out h
    obtain ⟨h1, h2, h3, h4, h5, h6, h7⟩ :=
      convertConfigurationFrame_bytes fc c c2 out h
    exact ⟨by rw [h2, h3, h1], h1, h4, h5, h6, h7⟩
  · intro ms agg out h hsize
    exact buildAggregatedConfigFrame_bytes ms agg out h hsize

/-- Witness for `emitted_frame_size_and_crc` at the concrete inputs
`sampleCfg2` (re-serializer) and `[sampleCfg2]` (aggregator). -/
theorem emitted_frame_size_and_crc_witness :
    (convertConfigurationFrame 10 sampleCfg2 = some (sampleConvCfg, sampleConvOut)
      ∧ (sampleConvOut.getD 2 0 * 256 + sampleConvOut.getD 3 0 =
          sampleConvOut.length
        ∧ sampleConvOut.length = 79
        ∧ sampleConvOut.getD 72 0 = sampleCfg2.crc / 256 % 256
        ∧ sampleConvOut.getD 73 0 = sampleCfg2.crc % 256
        ∧ sampleConvOut.getD 77 0 = 0 ∧ sampleConvOut.getD 78 0 = 0))
    ∧ (buildAggregatedConfigFrame [sampleCfg2] =
          some (sampleAggCfg, sampleAggOut)
      ∧ sampleAggOut.length < 65536
      ∧ (sampleAggOut.getD (sampleAggOut.length - 2) 0 * 256 +
            sampleAggOut.getD (sampleAggOut.length - 1) 0 =
          calculateCRC (sampleAggOut.take (sampleAggOut.length - 2))
        ∧ sampleAggOut.getD 2 0 * 256 + sampleAggOut.getD 3 0 =
            sampleAggOut.length)) :=
  ⟨⟨by rfl, emitted_frame_size_and_crc.1 10 sampleCfg2 sampleConvCfg
      sampleConvOut (by rfl)⟩,
    ⟨by rfl, by decide, emitted_frame_size_and_crc.2 [sampleCfg2]
      sampleAggCfg sampleAggOut (by rfl) (by decide)⟩⟩

/-- Claim C2, counterexample: the claim says projection keeps the one
phasor whose channel name *contains* `"U_SEQ+"` as a substring, so that
a phasor named `"xxU_SEQ+1"` is kept.  On the code,
`ConvertDataFrame` filters with the exact comparison
`phasor.Name == "U_SEQ+"` before `EncodePhasors` runs its substring
search, so a data frame whose only phasor is named `"xxU_SEQ+1"` — a
name that does contain `"U_SEQ+"` — is dropped with the
phasor-not-found error instead of being kept. -/
theorem convertDataFrame_substring_counterexample :
    strContains "xxU_SEQ+1" "U_SEQ+" = true
    ∧ convertDataFrame ⟨0, 0, 0, 0⟩
        ⟨⟨0, 0, 0, 0, 0⟩, decodeStat 0,
          [⟨"xxU_SEQ+1", 0, ⟨1, 0⟩, ⟨0, 0⟩⟩],
          ⟨0, 0⟩, ⟨0, 0⟩, [], [], 0⟩ =
      .error .phasorAbsent := by
  constructor
  · decide
  · decide

/-- Claim C2 (amended): for every data frame whose STAT re-encodes,
`ConvertDataFrame` keeps exactly the phasors whose channel name *is*
`"U_SEQ+"` (exact, case-sensitive equality — not a substring match; the
serialised payload then carries the first of them), drops all analogs
and all digital words, and when no phasor is named exactly `"U_SEQ+"`
the frame is dropped with the phasor-absent error rather than
emitted. -/
theorem convertDataFrame_projection (cfgFormat : FormatBits)
    (frame : C37DataFrame) (statValue : ℕ)
    (hstat : encodeStat frame.stat = .ok statValue) :
    (frame.phasors.any (fun ph => ph.name == "U_SEQ+") = false →
      convertDataFrame cfgFormat frame = .error .phasorAbsent)
    ∧ (frame.phasors.any (fun ph => ph.name == "U_SEQ+") = true →
      isOkE (convertDataFrame cfgFormat frame) = true)
    ∧ ∀ f2 out, convertDataFrame cfgFormat frame = .ok (f2, out) →
        f2.phasors = frame.phasors.filter (fun ph => ph.name == "U_SEQ+")
        ∧ f2.analogs = [] ∧ f2.digitals = [] := by
  refine ⟨?_, ?_, ?_⟩
  · intro hnone
    have hfil : frame.phasors.filter (fun ph => ph.name == "U_SEQ+") = [] := by
      rw [List.filter_eq_nil_iff]
      intro a ha
      have := List.any_eq_false.mp hnone a ha
      simpa using this
    simp only [convertDataFrame, hstat, hfil, encodePhasors_nil]
  · intro hsome
    cases hfil : frame.phasors.filter (fun ph => ph.name == "U_SEQ+") with
    | nil =>
        exfalso
        obtain ⟨a, ha, hp⟩ := List.any_eq_true.mp hsome
        have : a ∈ frame.phasors.filter (fun ph => ph.name == "U_SEQ+") :=
          List.mem_filter.mpr ⟨ha, hp⟩
        rw [hfil] at this
        exact absurd this (List.not_mem_nil a)
    | cons hd tl =>
        have hhd : hd ∈ frame.phasors.filter (fun ph => ph.name == "U_SEQ+") := by
          rw [hfil]; exact List.mem_cons_self hd tl
        have hname : hd.name = "U_SEQ+" := by
          have := (List.mem_filter.mp hhd).2
          simpa using this
        have hok := encodePhasors_cons_ok cfgFormat hd tl
          (phasorWanted_of_exact hd hname)
        cases hbs : encodePhasors cfgFormat (hd :: tl) with
        | error e => rw [hbs] at hok; simp [isOkE] at hok
        | ok bs =>
            simp only [convertDataFrame, hstat, hfil, hbs, isOkE]
  · intro f2 out hok
    simp only [convertDataFrame, hstat] at hok
    cases hep : encodePhasors cfgFormat
        (frame.phasors.filter (fun ph => ph.name == "U_SEQ+")) with
    | error e => rw [hep] at hok; simp at hok
    | ok bs =>
        rw [hep] at hok
        simp only [Except.ok.injEq, Prod.mk.injEq] at hok
        obtain ⟨hf2, -⟩ := hok
        subst hf2
        exact ⟨rfl, rfl, rfl⟩


/-- A sample decoded data frame with one exactly-named `"U_SEQ+"`
phasor, used by witnesses. -/
def sampleDataFrame : C37DataFrame :=
  ⟨⟨0xAA01, 26, 7, 1736899200, 300⟩, decodeStat 0,
    [⟨"U_SEQ+", 0, ⟨100, 0⟩, ⟨0, 0⟩⟩], ⟨50, 0⟩, ⟨0, 0⟩, [], [], 0x4242⟩

/-- Witness for `convertDataFrame_projection` at `sampleDataFrame`. -/
theorem convertDataFrame_projection_witness :
    encodeStat sampleDataFrame.stat = .ok 0
    ∧ ((sampleDataFrame.phasors.any (fun ph => ph.name == "U_SEQ+") = false →
        convertDataFrame ⟨0, 0, 0, 0⟩ sampleDataFrame = .error .phasorAbsent)
      ∧ (sampleDataFrame.phasors.any (fun ph => ph.name == "U_SEQ+") = true →
        isOkE (convertDataFrame ⟨0, 0, 0, 0⟩ sampleDataFrame) = true)
      ∧ ∀ f2 out,
          convertDataFrame ⟨0, 0, 0, 0⟩ sampleDataFrame = .ok (f2, out) →
          f2.phasors =
            sampleDataFrame.phasors.filter (fun ph => ph.name == "U_SEQ+")
          ∧ f2.analogs = [] ∧ f2.digitals = []) :=
  ⟨by decide,
    convertDataFrame_projection ⟨0, 0, 0, 0⟩ sampleDataFrame 0 (by decide)⟩

/-- Claim C4: the projected Config-2 structure has `num_phasors = 1`,
`num_analogs = 0`, `num_digitals = 0`, exactly the first PHUNIT, empty
ANUNIT and DIGUNIT tables, the single channel name `"U_SEQ+"` — and its
`data_rate` is `int16(model.FramesCount)`.  `FramesCount` is a global
the program never assigns (`pkg/cmd/main.go` stores the validated
`frames` flag in `model.OutputDataRate` instead), so the converter runs
with its zero value and writes `data_rate = 0`, not the
operator-configured target rate. -/
theorem projected_config_fields (fc : ℕ) (c c2 : C37ConfigurationFrame2)
    (out : List ℕ) (h : convertConfigurationFrame fc c = some (c2, out)) :
    c2.numPhasors = 1 ∧ c2.numAnalogs = 0 ∧ c2.numDigitals = 0
    ∧ c2.channelNames = ["U_SEQ+"]
    ∧ (∀ u0 us, c.phasorUnits = u0 :: us → c2.phasorUnits = [u0])
    ∧ c2.analogUnits = [] ∧ c2.digitalUnits = []
    ∧ c2.dataRate = toInt16 fc
    ∧ toInt16 0 = 0 := by
  cases hpu : c.phasorUnits with
  | nil => rw [convertConfigurationFrame, hpu] at h; simp at h
  | cons u0 us =>
      rw [convertConfigurationFrame, hpu] at h
      simp only [Option.some.injEq, Prod.mk.injEq] at h
      obtain ⟨hc2, -⟩ := h
      subst hc2
      refine ⟨rfl, rfl, rfl, rfl, ?_, rfl, rfl, rfl, by decide⟩
      intro u0x usx hx
      simp only [List.cons.injEq] at hx
      rw [hx.1]

/-- Witness for `projected_config_fields` at `sampleCfg2` with the
operator target set to 10 frames/s while `FramesCount` keeps its Go
zero value 0: the emitted `data_rate` is 0, not 10. -/
theorem projected_config_fields_witness :
    convertConfigurationFrame 0 sampleCfg2 =
      some (((convertConfigurationFrame 0 sampleCfg2).map Prod.fst).getD
          sampleCfg2,
        ((convertConfigurationFrame 0 sampleCfg2).map Prod.snd).getD [])
    ∧ (let c2 := ((convertConfigurationFrame 0 sampleCfg2).map Prod.fst).getD
          sampleCfg2
      c2.numPhasors = 1 ∧ c2.numAnalogs = 0 ∧ c2.numDigitals = 0
      ∧ c2.channelNames = ["U_SEQ+"]
      ∧ (∀ u0 us, sampleCfg2.phasorUnits = u0 :: us → c2.phasorUnits = [u0])
      ∧ c2.analogUnits = [] ∧ c2.digitalUnits = []
      ∧ c2.dataRate = toInt16 0
      ∧ toInt16 0 = 0)
    ∧ (10 : ℤ) ≠ 0 :=
  ⟨by rfl,
    projected_config_fields 0 sampleCfg2 _ _ (by rfl),
    by decide⟩


/-- Does the listener outcome carry a decoded frame? -/
def isDecodedOutcome : StepOutcome → Bool
  | .decoded _ => true
  | _ => false

/-- A concrete data frame addressed to IDCODE 13: 14 header bytes
(`sync = 0xAA01`, data type; `frame_size = 26`; `id_code = 13`), then
STAT, one 16-bit polar phasor, integer FREQ and DFREQ, and the CRC
field. -/
def dataBytes13 : List ℕ :=
  [170, 1, 0, 26, 0, 13, 103, 134, 250, 128, 0, 0, 1, 44] ++
  [0, 0, 0, 100, 0, 0, 3, 232, 0, 50, 66, 66]

/-- Claim C5, counterexample: the claim says a data frame is decoded
only when a configuration with the *same* `id_code` has been seen.  The
listener never compares IDCODEs: with only the IDCODE-7 configuration
`sampleCfg2` cached, a data frame carrying IDCODE 13 is decoded (not
dropped). -/
theorem gating_idcode_counterexample :
    sampleCfg2.header.idCode = 7
    ∧ (decodeC37Header (dataBytes13.take 14)).idCode = 13
    ∧ isDecodedOutcome
        (dataFrameStep ⟨some sampleCfg2, none, []⟩ dataBytes13).2 = true
    ∧ (dataFrameStep ⟨some sampleCfg2, none, []⟩ dataBytes13).2 ≠
        .droppedNoConfig := by
  refine ⟨by decide, by decide, by decide, ?_⟩
  intro h
  have h2 : isDecodedOutcome
      (dataFrameStep ⟨some sampleCfg2, none, []⟩ dataBytes13).2 = true := by
    decide
  rw [h] at h2
  exact absurd h2 (by decide)

/-- Claim C5 (amended): the listener's gate for data frames is global,
not per-IDCODE: an arriving data frame is dropped if and only if *both*
global configuration slots (`CfgFrame2`, `CfgFrame3`) are still empty,
regardless of any `id_code`; and the arriving frame is appended to the
timestamp-keyed frame buffer whether or not it is dropped (so state is
mutated by the attempt). -/
theorem gating_is_global (s : ListenerState) (frameData : List ℕ) :
    ((dataFrameStep s frameData).2 = .droppedNoConfig ↔
      s.cfg2 = none ∧ s.cfg3 = none)
    ∧ (dataFrameStep s frameData).1.frameBuffer =
        s.frameBuffer ++
          [(((decodeC37Header (frameData.take 14)).soc,
              (decodeC37Header (frameData.take 14)).fracSec),
            ⟨(decodeC37Header (frameData.take 14)).idCode,
              (decodeC37Header (frameData.take 14)).soc,
              (decodeC37Header (frameData.take 14)).fracSec, frameData⟩)] := by
  constructor
  · unfold dataFrameStep
    by_cases h : s.cfg2 = none ∧ s.cfg3 = none
    · simp [h]
    · simp only [if_neg h]
      cases hdec : decodeDataFrame s.cfg2 (decodeC37Header (frameData.take 14))
          (frameData.drop 14) with
      | ok f => simp [hdec, h]
      | err => simp [hdec, h]
      | panicked => simp [hdec, h]
  · unfold dataFrameStep
    by_cases h : s.cfg2 = none ∧ s.cfg3 = none
    · simp [h]
    · simp only [if_neg h]
      cases hdec : decodeDataFrame s.cfg2 (decodeC37Header (frameData.take 14))
          (frameData.drop 14) with
      | ok f => simp [hdec]
      | err => simp [hdec]
      | panicked => simp [hdec]

/-- Claim C6, counterexample: the claim says decoding rejects a buffer
whose `frame_size` field differs from the buffer length and rejects on
CRC failure.  `ReadUDPFrame` accepts a 20-byte datagram whose
`frame_size` field reads 16 by silently truncating it to 16 bytes, and
no CRC is computed anywhere on the receive path (the acceptance
condition proved in the amended theorem mentions only lengths and the
size field — these 16 bytes carry no valid CRC either). -/
theorem readUDPFrame_size_counterexample :
    ([170, 1, 0, 16, 0, 13, 103, 134, 250, 128, 0, 0, 1, 44, 0, 0, 9, 9, 9,
        9] : List ℕ).length = 20
    ∧ readUDPFrame
        [170, 1, 0, 16, 0, 13, 103, 134, 250, 128, 0, 0, 1, 44, 0, 0, 9, 9,
          9, 9] =
      .ok [170, 1, 0, 16, 0, 13, 103, 134, 250, 128, 0, 0, 1, 44, 0, 0] := by
  constructor
  · decide
  · decide

/-- Claim C6 (amended): `ReadUDPFrame` accepts a received buffer exactly
when it has at least 4 bytes and its `frame_size` field is between 4
and the received length, returning the buffer truncated to
`frame_size`; a `frame_size` smaller than the received length is *not*
rejected, and no CRC verification is performed anywhere on the receive
path — acceptance depends only on the received length and the
`frame_size` field. -/
theorem readUDPFrame_acceptance (received out : List ℕ) :
    readUDPFrame received = .ok out ↔
      (4 ≤ received.length
        ∧ 4 ≤ received.getD 2 0 % 256 * 256 + received.getD 3 0 % 256
        ∧ received.getD 2 0 % 256 * 256 + received.getD 3 0 % 256 ≤
            received.length
        ∧ out = received.take
            (received.getD 2 0 % 256 * 256 + received.getD 3 0 % 256)) := by
  unfold readUDPFrame
  by_cases h1 : received.length < 4
  · simp only [if_pos h1]
    constructor
    · intro h; cases h
    · rintro ⟨h, -⟩; omega
  · simp only [if_neg h1]
    by_cases h2 : received.getD 2 0 % 256 * 256 + received.getD 3 0 % 256 < 4
    · simp only [if_pos h2]
      constructor
      · intro h; cases h
      · rintro ⟨-, h, -⟩; omega
    · simp only [if_neg h2]
      by_cases h3 : received.length <
          received.getD 2 0 % 256 * 256 + received.getD 3 0 % 256
      · simp only [if_pos h3]
        constructor
        · intro h; cases h
        · rintro ⟨-, -, h, -⟩; omega
      · simp only [if_neg h3]
        constructor
        · intro h
          cases h
          exact ⟨by omega, by omega, by omega, rfl⟩
        · rintro ⟨-, -, -, h⟩
          rw [h]

/-- A second sample Config-2 (IDCODE 11, station "STATION B"), used to
exhibit the aggregator's dependence on map-iteration order. -/
def cfgB : C37ConfigurationFrame2 :=
  { sampleCfg2 with
      header := ⟨0xAA31, 70, 11, 1736899200, 300⟩,
      stationName := "STATION B",
      idCode2 := 11 }

/-- Aggregator output for the iteration sequence `[sampleCfg2, cfgB]`. -/
def aggOutAB : List ℕ :=
  ((buildAggregatedConfigFrame [sampleCfg2, cfgB]).map Prod.snd).getD []

/-- Aggregator output for the iteration sequence `[cfgB, sampleCfg2]`. -/
def aggOutBA : List ℕ :=
  ((buildAggregatedConfigFrame [cfgB, sampleCfg2]).map Prod.snd).getD []

/-- Claim C7, counterexample: `BuildAggregatedConfigFrame` iterates the
`configBuffer` Go map with `for _, cfg := range`, so the block order is
the map's iteration order, which Go randomises — it is not determined
by the insertion sequence.  In the embedding the builder is a function
of the iteration sequence, and two iteration sequences holding the same
buffered members (they are permutations of each other) yield different
bytes: with members `sampleCfg2` and `cfgB`, byte 28 (station-name byte
8 of the first PMU block) is 65 ('A') in one order and 66 ('B') in the
other, so the emitted frames differ. -/
theorem aggregator_map_order_counterexample :
    List.Perm [sampleCfg2, cfgB] [cfgB, sampleCfg2]
    ∧ aggOutAB.getD 28 0 = 65
    ∧ aggOutBA.getD 28 0 = 66
    ∧ aggOutAB ≠ aggOutBA := by
  have hA : aggOutAB.getD 28 0 = 65 := by decide
  have hB : aggOutBA.getD 28 0 = 66 := by decide
  refine ⟨List.Perm.swap _ _ _, hA, hB, fun hcontra => ?_⟩
  rw [hcontra, hB] at hA
  exact absurd hA (by decide)

/-- Claim C7 (amended): the aggregated frame is a function of the map
*iteration* sequence (not the insertion sequence): the per-PMU blocks
appear at offset 20 concatenated in iteration order, and the inherited
header fields are taken from the iteration-first member (`aggStruct`). -/
theorem aggregator_iteration_order (ms : List C37ConfigurationFrame2)
    (agg : C37ConfigurationFrame2) (out : List ℕ)
    (h : buildAggregatedConfigFrame ms = some (agg, out)) :
    ∃ first rest, ms = first :: rest
      ∧ agg = aggStruct first ms
      ∧ (out.drop 20).take ((ms.map pmuBlock).flatten).length =
          (ms.map pmuBlock).flatten := by
  cases ms with
  | nil => simp [buildAggregatedConfigFrame] at h
  | cons first rest =>
      simp only [buildAggregatedConfigFrame, Option.some.injEq,
        Prod.mk.injEq] at h
      obtain ⟨hagg, hout⟩ := h
      refine ⟨first, rest, rfl, hagg.symm, ?_⟩
      set ag := aggStruct first (first :: rest) with hag
      set H := u16be ag.header.sync ++ u16be 0 ++
          u16be ag.header.idCode ++ u32be ag.header.soc ++
          u32be ag.header.fracSec ++ u32be (ag.timeMultiplier % 32768) ++
          u16be ag.numPMU with hH
      set FL := ((first :: rest).map pmuBlock).flatten with hFL
      set D := i16be ag.dataRate with hD
      have hHlen : H.length = 20 := by
        rw [hH]
        simp [List.length_append, length_u16be, length_u32be]
      have hsplit : ∀ a b : ℕ,
          ((H ++ (FL ++ D)).set 2 a).set 3 b =
            ((H.set 2 a).set 3 b) ++ (FL ++ D) := by
        intro a b
        rw [List.set_append_left _ _ (by rw [hHlen]; norm_num),
          List.set_append_left _ _ (by simp [List.length_set, hHlen])]
      rw [← hout, hsplit, List.append_assoc,
        List.drop_left' (by simp [List.length_set, hHlen]),
        List.append_assoc]
      exact List.take_left FL _

/-- The amended C7 theorem instantiated on the singleton iteration
sequence `[sampleCfg2]`. -/
theorem aggregator_iteration_order_witness :
    ∃ first rest, [sampleCfg2] = first :: rest
      ∧ sampleAggCfg = aggStruct first [sampleCfg2]
      ∧ (sampleAggOut.drop 20).take
            ((([sampleCfg2].map pmuBlock).flatten).length) =
          ([sampleCfg2].map pmuBlock).flatten :=
  aggregator_iteration_order [sampleCfg2] sampleAggCfg sampleAggOut (by rfl)

theorem foldl_mod_sum {α : Type} (f : α → ℕ) (l : List α) (a : ℕ) :
    l.foldl (fun acc c => (acc + f c) % 65536) (a % 65536) =
      (a + (l.map f).sum) % 65536 := by
  induction l generalizing a with
  | nil => simp
  | cons x xs ih =>
      simp only [List.foldl_cons, List.map_cons, List.sum_cons]
      have h1 : (a % 65536 + f x) % 65536 = (a + f x) % 65536 := by omega
      rw [h1, ih (a + f x)]
      omega

/-- Claim C8: an aggregated configuration built from a non-empty
iteration sequence has the synthetic IDCODE 999, `NumPMU` the number of
members, and phasor/analog/digital counts the sums of the members'
counts (whenever they fit in 16 bits); the buffer is flushed at
`requiredPMUs = 3` distinct IDCODEs. -/
theorem aggregated_counts (first : C37ConfigurationFrame2)
    (rest : List C37ConfigurationFrame2)
    (agg : C37ConfigurationFrame2) (out : List ℕ)
    (h : buildAggregatedConfigFrame (first :: rest) = some (agg, out))
    (hp : (((first :: rest).map fun c => c.numPhasors).sum) < 65536)
    (ha : (((first :: rest).map fun c => c.numAnalogs).sum) < 65536)
    (hd : (((first :: rest).map fun c => c.numDigitals).sum) < 65536)
    (hn : (first :: rest).length < 65536) :
    agg.header.idCode = 999
    ∧ agg.numPMU = (first :: rest).length
    ∧ agg.numPhasors = ((first :: rest).map fun c => c.numPhasors).sum
    ∧ agg.numAnalogs = ((first :: rest).map fun c => c.numAnalogs).sum
    ∧ agg.numDigitals = ((first :: rest).map fun c => c.numDigitals).sum
    ∧ requiredPMUs = 3 := by
  simp only [buildAggregatedConfigFrame, Option.some.injEq,
    Prod.mk.injEq] at h
  obtain ⟨hagg, -⟩ := h
  rw [← hagg]
  refine ⟨rfl, ?_, ?_, ?_, ?_, rfl⟩
  · show (first :: rest).length % 65536 = (first :: rest).length
    exact Nat.mod_eq_of_lt hn
  · show (first :: rest).foldl (fun a c => (a + c.numPhasors) % 65536) 0 =
      ((first :: rest).map fun c => c.numPhasors).sum
    have hf := foldl_mod_sum
      (fun c : C37ConfigurationFrame2 => c.numPhasors) (first :: rest) 0
    rw [show (0 : ℕ) = 0 % 65536 from rfl, hf]
    omega
  · show (first :: rest).foldl (fun a c => (a + c.numAnalogs) % 65536) 0 =
      ((first :: rest).map fun c => c.numAnalogs).sum
    have hf := foldl_mod_sum
      (fun c : C37ConfigurationFrame2 => c.numAnalogs) (first :: rest) 0
    rw [show (0 : ℕ) = 0 % 65536 from rfl, hf]
    omega
  · show (first :: rest).foldl (fun a c => (a + c.numDigitals) % 65536) 0 =
      ((first :: rest).map fun c => c.numDigitals).sum
    have hf := foldl_mod_sum
      (fun c : C37ConfigurationFrame2 => c.numDigitals) (first :: rest) 0
    rw [show (0 : ℕ) = 0 % 65536 from rfl, hf]
    omega

/-- The member with IDCODE 7 and 3 phasors of the aggregation example. -/
def aggM7 : C37ConfigurationFrame2 := { sampleCfg2 with numPhasors := 3 }

/-- The member with IDCODE 11 and 3 phasors of the aggregation
example. -/
def aggM11 : C37ConfigurationFrame2 := { cfgB with numPhasors := 3 }

/-- The member with IDCODE 13 and 4 phasors of the aggregation
example. -/
def aggM13 : C37ConfigurationFrame2 :=
  { sampleCfg2 with
      header := ⟨0xAA31, 70, 13, 1736899200, 300⟩,
      idCode2 := 13,
      numPhasors := 4 }

/-- Aggregator result on the three-member example buffer. -/
def aggTrium : Option (C37ConfigurationFrame2 × List ℕ) :=
  buildAggregatedConfigFrame [aggM7, aggM11, aggM13]

/-- The aggregate structure of the three-member example. -/
def aggTriCfg : C37ConfigurationFrame2 :=
  (aggTrium.map Prod.fst).getD sampleCfg2

/-- The aggregate frame bytes of the three-member example. -/
def aggTriOut : List ℕ := (aggTrium.map Prod.snd).getD []

/-- The C8 theorem instantiated on three members with IDCODEs 7, 11, 13
and phasor counts 3, 3, 4: the aggregate reports IDCODE 999, 3 PMUs and
10 phasors. -/
theorem aggregated_counts_witness :
    aggTriCfg.header.idCode = 999
    ∧ aggTriCfg.numPMU = [aggM7, aggM11, aggM13].length
    ∧ aggTriCfg.numPhasors =
        ([aggM7, aggM11, aggM13].map fun c => c.numPhasors).sum
    ∧ aggTriCfg.numAnalogs =
        ([aggM7, aggM11, aggM13].map fun c => c.numAnalogs).sum
    ∧ aggTriCfg.numDigitals =
        ([aggM7, aggM11, aggM13].map fun c => c.numDigitals).sum
    ∧ requiredPMUs = 3 :=
  aggregated_counts aggM7 [aggM11, aggM13] aggTriCfg aggTriOut (by rfl)
    (by decide) (by decide) (by decide) (by decide)

/-- Claim C9: frequency and ROCOF decoding per FORMAT bit 3.  With the
integer format (`freqDfreq = 0`) the frequency is the FNOM nominal (50
or 60 Hz) plus the signed 16-bit raw value divided by 1000, and ROCOF
is the signed 16-bit raw value divided by 100; with the float format
both are the `float32` value read from the four big-endian bytes.  All
arithmetic is `float64` arithmetic on the decoded values. -/
theorem decodeFrequency_rocof_spec (fnom : FNom) (format : FormatBits)
    (b0 b1 b2 b3 : ℕ) (rest : List ℕ)
    (hnom : fnom.is50Hz ∨ fnom.is60Hz) :
    (format.freqDfreq = 0 →
      decodeFrequency fnom format (b0 :: b1 :: rest) =
        .ok (fadd (fofNat (if fnom.is50Hz then 50 else 60))
          (fdivZ (toInt16 (b0 % 256 * 256 + b1 % 256)) 1000), rest))
    ∧ (format.freqDfreq ≠ 0 →
      decodeFrequency fnom format (b0 :: b1 :: b2 :: b3 :: rest) =
        .ok (f32val (f32ofBytes b0 b1 b2 b3), rest))
    ∧ (format.freqDfreq = 0 →
      decodeROCOF format (b0 :: b1 :: rest) =
        .ok (fdivZ (toInt16 (b0 % 256 * 256 + b1 % 256)) 100, rest))
    ∧ (format.freqDfreq ≠ 0 →
      decodeROCOF format (b0 :: b1 :: b2 :: b3 :: rest) =
        .ok (f32val (f32ofBytes b0 b1 b2 b3), rest)) := by
  have h4 : ∀ n : ℕ, 4 - (n + 4) = 0 := fun n => by omega
  have h2 : ∀ n : ℕ, 2 - (n + 2) = 0 := fun n => by omega
  refine ⟨fun h => ?_, fun h => ?_, fun h => ?_, fun h => ?_⟩
  · simp [decodeFrequency, hnom, h, readU16]
  · simp [decodeFrequency, hnom, h, readLoose, h4, f32ofBytes]
  · simp [decodeROCOF, h, readLoose, h2]
  · simp [decodeROCOF, h, readLoose, h4, f32ofBytes]

/-- The C9 theorem instantiated at a 50 Hz FNOM with the integer FORMAT
on raw bytes `[3, 232]` (raw 1000: 51 Hz, 10 Hz/s) and the float FORMAT
on `[66, 72, 0, 0]` (`float32` 50.0). -/
theorem decodeFrequency_rocof_spec_witness :
    ((⟨0, 0, 0, 0⟩ : FormatBits).freqDfreq = 0 →
      decodeFrequency ⟨true, false, 1⟩ ⟨0, 0, 0, 0⟩ (3 :: 232 :: []) =
        .ok (fadd (fofNat (if (⟨true, false, 1⟩ : FNom).is50Hz then 50 else 60))
          (fdivZ (toInt16 (3 % 256 * 256 + 232 % 256)) 1000), []))
    ∧ ((⟨0, 0, 0, 0⟩ : FormatBits).freqDfreq ≠ 0 →
      decodeFrequency ⟨true, false, 1⟩ ⟨0, 0, 0, 0⟩
          (3 :: 232 :: 66 :: 72 :: []) =
        .ok (f32val (f32ofBytes 3 232 66 72), []))
    ∧ ((⟨0, 0, 0, 0⟩ : FormatBits).freqDfreq = 0 →
      decodeROCOF ⟨0, 0, 0, 0⟩ (3 :: 232 :: []) =
        .ok (fdivZ (toInt16 (3 % 256 * 256 + 232 % 256)) 100, []))
    ∧ ((⟨0, 0, 0, 0⟩ : FormatBits).freqDfreq ≠ 0 →
      decodeROCOF ⟨0, 0, 0, 0⟩ (3 :: 232 :: 66 :: 72 :: []) =
        .ok (f32val (f32ofBytes 3 232 66 72), [])) :=
  decodeFrequency_rocof_spec ⟨true, false, 1⟩ ⟨0, 0, 0, 0⟩ 3 232 66 72 []
    (by decide)

/-- Claim C10: in the Config-3-only state the listener's gate passes
(one configuration slot is filled), yet `DecodeDataFrame`
unconditionally dereferences the global Config-2, which is still `nil`:
every data frame long enough to carry a STAT word drives the decode
path into a nil-pointer dereference (`panicked`), never a decoded frame
or a returned error. -/
theorem config3_only_panics (c : C37ConfigurationFrame3)
    (buf : List ((ℕ × ℕ) × PMUFrame)) (frameData : List ℕ)
    (h : 16 ≤ frameData.length) :
    (dataFrameStep ⟨none, some c, buf⟩ frameData).2 = .panicked := by
  have hlen : 2 ≤ (frameData.drop 14).length := by
    simp only [List.length_drop]
    omega
  obtain ⟨b0, b1, rest, hb⟩ :
      ∃ b0 b1 rest, frameData.drop 14 = b0 :: b1 :: rest := by
    cases hd : frameData.drop 14 with
    | nil => rw [hd] at hlen; simp at hlen
    | cons b0 t =>
        cases t with
        | nil => rw [hd] at hlen; simp at hlen
        | cons b1 r => exact ⟨b0, b1, r, rfl⟩
  have hdec : decodeDataFrame none (decodeC37Header (frameData.take 14))
      (frameData.drop 14) = .panicked := by
    rw [hb]
    simp [decodeDataFrame, readU16]
  simp only [dataFrameStep]
  rw [if_neg (by simp), hdec]

/-- The C10 theorem on the concrete Config-3-only state and a 16-byte
data frame of zeros. -/
theorem config3_only_panics_witness :
    (dataFrameStep ⟨none, some ⟨⟨0xAA32, 20, 7, 0, 0⟩⟩, []⟩
        [0, 0, 0, 0, 0, 0, 0, 0, 0, 0, 0, 0, 0, 0, 0, 0]).2 =
      .panicked :=
  config3_only_panics ⟨⟨0xAA32, 20, 7, 0, 0⟩⟩ []
    [0, 0, 0, 0, 0, 0, 0, 0, 0, 0, 0, 0, 0, 0, 0, 0] (by decide)

end FrameReductor
